import Mathlib

/-!
Verification development for the off-chain DEX order-management core
(backend matching engine, order model, price oracle, order service).

The JavaScript source is shallowly embedded:
* JS doubles appearing in engine arithmetic are idealized as `ℚ` (the engine
  only ever produces finite values from finite inputs on the modelled paths);
  `Order.recordFill`, whose guard behaviour on NaN/Infinity is itself under
  scrutiny, is additionally embedded over a full JS-number type `JNum`.
* JS objects mutated in place are modelled by an explicit state: order
  records live in a registry keyed by id, and book lists hold ids, which
  models JS reference aliasing (every holder of a reference observes each
  mutation).
* `Date` timestamps are an abstract tick `ℕ` drawn from the state clock.
* Randomly generated ids (synthetic counterparties, batch ids) are drawn
  from a deterministic counter in the state.
-/

namespace Dex

/-- Order lifecycle status strings of the source (`PENDING`, `PARTIAL`, ...). -/
inductive Status where
  | PENDING
  | PARTIAL
  | FILLED
  | CANCELLED
  | REJECTED
  | EXPIRED
  | TRIGGERED
deriving DecidableEq, Repr

/-- `ORDER_TYPES` of matching.service.js. -/
inductive OrderType where
  | LIMIT
  | MARKET
  | STOP_LOSS
  | STOP_LIMIT
deriving DecidableEq, Repr

/-- `TIME_IN_FORCE` of matching.service.js. -/
inductive TIF where
  | GTC
  | IOC
  | FOK
  | POST_ONLY
deriving DecidableEq, Repr

/-- Order side. -/
inductive Side where
  | BUY
  | SELL
deriving DecidableEq, Repr

/-! ## JS number semantics for `Order.recordFill` (models/Order.js 248-272)

`recordFill` is guarded by `Number.isNaN(fillAmount) || fillAmount <= 0`,
which lets `Infinity` through; to settle claims about that guard the function
is embedded over a faithful JS-number type. -/

/-- A JavaScript number: NaN, the two infinities, or a finite value
(idealized as `ℚ`). -/
inductive JNum where
  | nan
  | posInf
  | negInf
  | fin (q : ℚ)
deriving DecidableEq, Repr

namespace JNum

/-- `Number.isNaN`. -/
def isNaN : JNum → Bool
  | .nan => true
  | _ => false

/-- JS `<=` comparison (false whenever an operand is NaN). -/
def jle : JNum → JNum → Bool
  | .nan, _ => false
  | _, .nan => false
  | .negInf, _ => true
  | _, .negInf => false
  | _, .posInf => true
  | .posInf, _ => false
  | .fin a, .fin b => decide (a ≤ b)

/-- JS `>` comparison (false whenever an operand is NaN). -/
def jgt : JNum → JNum → Bool
  | .nan, _ => false
  | _, .nan => false
  | .posInf, .posInf => false
  | .posInf, _ => true
  | _, .posInf => false
  | .negInf, _ => false
  | _, .negInf => true
  | .fin a, .fin b => decide (b < a)

/-- JS addition. -/
def add : JNum → JNum → JNum
  | .nan, _ => .nan
  | _, .nan => .nan
  | .posInf, .negInf => .nan
  | .negInf, .posInf => .nan
  | .posInf, _ => .posInf
  | _, .posInf => .posInf
  | .negInf, _ => .negInf
  | _, .negInf => .negInf
  | .fin a, .fin b => .fin (a + b)

/-- JS subtraction. -/
def sub : JNum → JNum → JNum
  | .nan, _ => .nan
  | _, .nan => .nan
  | .posInf, .posInf => .nan
  | .negInf, .negInf => .nan
  | .posInf, _ => .posInf
  | .negInf, _ => .negInf
  | _, .posInf => .negInf
  | _, .negInf => .posInf
  | .fin a, .fin b => .fin (a - b)

/-- The JS literal `0`. -/
def zero : JNum := .fin 0

end JNum

/-- An execution entry as appended by `Order.recordFill`
(amount, price, counterparty, timestamp), JS-number variant. -/
structure JsExecution where
  amount : JNum
  price : Option JNum
  counterparty : Option String
  timestamp : ℕ
deriving DecidableEq, Repr

/-- The slice of an order record that `Order.recordFill` reads and writes
(models/Order.js).  `amount` is fixed at construction; `filled`, `status`,
`updatedAt` and `executions` are mutated by fills. -/
structure JsOrder where
  amount : JNum
  filled : JNum
  status : Status
  updatedAt : ℕ
  executions : List JsExecution
deriving DecidableEq, Repr

/-- `get remaining()` of models/Order.js 225-228:
`amount - filled` clamped at `0` (the JS comparison `remainingAmount > 0`
is false for NaN, which therefore also yields `0`). -/
def JsOrder.remaining (o : JsOrder) : JNum :=
  let remainingAmount := o.amount.sub o.filled
  if remainingAmount.jgt .zero then remainingAmount else .zero

/-- `Order.recordFill(amount, price, counterpartyId, timestamp)` of
models/Order.js 248-272, over JS numbers.  Returns the appended execution
(`null` is `none`) together with the updated order. -/
def JsOrder.recordFill (o : JsOrder) (amount : JNum) (price : Option JNum)
    (counterpartyId : Option String) (timestamp : ℕ) :
    Option JsExecution × JsOrder :=
  let fillAmount := amount
  if fillAmount.isNaN || fillAmount.jle .zero then
    (none, o)
  else
    let execution : JsExecution :=
      { amount := fillAmount
        price := price
        counterparty := counterpartyId
        timestamp := timestamp }
    let o := { o with filled := o.filled.add fillAmount }
    let o :=
      if o.remaining.jle .zero then { o with status := .FILLED }
      else { o with status := .PARTIAL }
    let o := { o with updatedAt := timestamp, executions := o.executions ++ [execution] }
    (some execution, o)

/-! ## Engine data model (matching.service.js, models/Order.js)

Engine arithmetic is idealized over `ℚ`; all values produced on the modelled
paths are finite.  Order records are owned by a registry keyed by id and the
book lists store ids, modelling JS in-place mutation of shared references. -/

/-- A trade record as pushed into a pair's bounded history
(matching.service.js 589-598, 411-423, 247-257). -/
structure Trade where
  price : ℚ
  amount : ℚ
  fillAmount : ℚ
  buyOrderId : String
  sellOrderId : String
  makerOrderId : String
  takerOrderId : String
  timestamp : ℕ
  synthetic : Bool := false
  syntheticCounterparty : Option String := none
  syntheticQuoteAmount : Option ℚ := none
  batchId : Option String := none
deriving DecidableEq, Repr

/-- An execution entry appended by `Order.recordFill`; batch execution
additionally stamps `batchId`/`offerAmount`/`receiveAmount` onto it
(matching.service.js 226-231). -/
structure Execution where
  amount : ℚ
  price : Option ℚ
  counterparty : Option String
  timestamp : ℕ
  batchId : Option String := none
  offerAmount : Option ℚ := none
  receiveAmount : Option ℚ := none
deriving DecidableEq, Repr

/-- One entry of `metadata.batchExecutions` (matching.service.js 237-245). -/
structure BatchExecutionNote where
  batchId : String
  index : ℕ
  offerToken : String
  requestToken : String
  offerAmount : ℚ
  receiveAmount : ℚ
  executedAt : ℕ
deriving DecidableEq, Repr

/-- The `metadata` bag of an order record; only keys the engine reads or
writes are modelled.  `none` models an absent key. -/
structure Metadata where
  price : Option ℚ := none
  priceSource : Option String := none
  rejectReason : Option String := none
  cancelReason : Option String := none
  availableVolume : Option ℚ := none
  unfilledAmount : Option ℚ := none
  trades : Option (List Trade) := none
  lastTradePrice : Option ℚ := none
  lastTradeAt : Option ℕ := none
  triggeredPrice : Option ℚ := none
  triggerSource : Option String := none
  triggeredAtMeta : Option ℕ := none
  queuedAt : Option ℕ := none
  restedAt : Option ℕ := none
  syntheticFill : Option String := none
  batchExecutions : Option (List BatchExecutionNote) := none
deriving DecidableEq, Repr

/-- An order record (models/Order.js).  Enum-valued string fields are carried
as their typed normal forms (the constructor normalizes and validates them);
`price`/`stopPrice`/`minFillAmount` are `null`-able numbers. -/
structure Order where
  id : String
  trader : String
  baseToken : String
  quoteToken : String
  side : Side
  price : Option ℚ
  amount : ℚ
  filled : ℚ
  status : Status
  orderType : OrderType
  timeInForce : TIF
  stopPrice : Option ℚ
  allowPartialFill : Bool
  minFillAmount : Option ℚ
  createdAt : ℕ
  updatedAt : ℕ
  triggeredAt : Option ℕ
  metadata : Metadata
  executions : List Execution
deriving DecidableEq, Repr

namespace Order

/-- `get remaining()` (models/Order.js 225-228). -/
def remaining (o : Order) : ℚ := max (o.amount - o.filled) 0

/-- `isBuy()` (models/Order.js 230-232). -/
def isBuy (o : Order) : Bool := o.side == .BUY

/-- `isSell()` (models/Order.js 234-236). -/
def isSell (o : Order) : Bool := o.side == .SELL

/-- `Order.recordFill` (models/Order.js 248-272) restricted to the finite
numerics the engine paths produce (`JsOrder.recordFill` above is the
full JS-number version; over `ℚ` the NaN guard degenerates and only
`fillAmount <= 0` remains). -/
def recordFill (o : Order) (amount : ℚ) (price : Option ℚ)
    (counterpartyId : Option String) (timestamp : ℕ) : Option Execution × Order :=
  if amount ≤ 0 then (none, o)
  else
    let execution : Execution :=
      { amount := amount
        price := price
        counterparty := counterpartyId
        timestamp := timestamp }
    let o := { o with filled := o.filled + amount }
    let o :=
      if o.remaining ≤ 0 then { o with status := .FILLED }
      else { o with status := .PARTIAL }
    let o := { o with updatedAt := timestamp, executions := o.executions ++ [execution] }
    (some execution, o)

/-- `markTriggered` (models/Order.js 242-246). -/
def markTriggered (o : Order) (triggerTime : ℕ) : Order :=
  { o with triggeredAt := some triggerTime, status := .TRIGGERED, updatedAt := triggerTime }

/-- `cancel(reason)` (models/Order.js 274-279); `now` models `new Date()`. -/
def cancelMark (o : Order) (reason : String) (now : ℕ) : Order :=
  { o with status := .CANCELLED
           metadata := { o.metadata with cancelReason := some reason }
           updatedAt := now }

end Order

/-- A per-pair order book (matching.service.js `_emptyBook`, 689-699).
Order lists hold record ids (JS holds shared object references). -/
structure Book where
  buy : List String := []
  sell : List String := []
  marketBuy : List String := []
  marketSell : List String := []
  stopLoss : List String := []
  stopLimit : List String := []
  trades : List Trade := []
deriving DecidableEq, Repr

/-- A `marketPriceMeta` entry as written by `_setMarketPriceEntry`
(matching.service.js 772-777). -/
structure PriceMeta where
  source : String
  updatedAt : ℕ
  previousPrice : Option ℚ
  price : ℚ
deriving DecidableEq, Repr

/-- The value of `getMarketPriceSnapshotFromKey` (matching.service.js 91-110). -/
structure Snapshot where
  price : ℚ
  source : String
  updatedAt : Option ℕ
  previousPrice : Option ℚ
deriving DecidableEq, Repr

/-- Per-canonical-pair dynamic price state of the oracle
(price-oracle.service.js 158-167). -/
structure PairState where
  tokenA : String
  tokenB : String
  price : ℚ
  baselinePrice : ℚ
  liquidityScore : ℚ
  lastUpdatedAt : ℕ
  lastSource : String
  lastSide : Option Side
deriving DecidableEq, Repr

/-- The whole mutable state: order registry (order.service.js `this.orders`
plus the shared references held by the books), the matching engine's maps,
and the oracle's pair states.  `clock` models `new Date()` ticks and `uid`
the random id generator. -/
structure EngineState where
  reg : List (String × Order) := []
  orderBooks : List (String × Book) := []
  marketPrices : List (String × ℚ) := []
  marketPriceMeta : List (String × PriceMeta) := []
  oracle : List (String × PairState) := []
  clock : ℕ := 0
  uid : ℕ := 0
deriving DecidableEq, Repr

/-! ### Association-list maps (JS `Map`) -/

/-- `Map.get`. -/
def aget {α : Type} : List (String × α) → String → Option α
  | [], _ => none
  | (k, v) :: rest, key => if k = key then some v else aget rest key

/-- `Map.set`: replace the binding if present, else append. -/
def aset {α : Type} : List (String × α) → String → α → List (String × α)
  | [], key, v => [(key, v)]
  | (k, w) :: rest, key, v =>
    if k = key then (k, v) :: rest else (k, w) :: aset rest key v

/-- Registry read; book lists hold ids of registered orders. -/
def getOrd (s : EngineState) (id : String) : Option Order := aget s.reg id

/-- Registry write-back of a mutated order record. -/
def putOrd (s : EngineState) (o : Order) : EngineState :=
  { s with reg := aset s.reg o.id o }

/-- Selector for one of the six id lists of a book. -/
inductive BookList where
  | buy
  | sell
  | marketBuy
  | marketSell
  | stopLoss
  | stopLimit
deriving DecidableEq, Repr

/-- Read a book list through its selector. -/
def Book.getList (b : Book) : BookList → List String
  | .buy => b.buy
  | .sell => b.sell
  | .marketBuy => b.marketBuy
  | .marketSell => b.marketSell
  | .stopLoss => b.stopLoss
  | .stopLimit => b.stopLimit

/-- Write a book list through its selector. -/
def Book.setList (b : Book) : BookList → List String → Book
  | .buy, l => { b with buy := l }
  | .sell, l => { b with sell := l }
  | .marketBuy, l => { b with marketBuy := l }
  | .marketSell, l => { b with marketSell := l }
  | .stopLoss, l => { b with stopLoss := l }
  | .stopLimit, l => { b with stopLimit := l }

/-- The list named by `sel` of the pair's book (empty when the book does not
exist; the callers below guard existence exactly where the source does). -/
def getList (s : EngineState) (key : String) (sel : BookList) : List String :=
  match aget s.orderBooks key with
  | none => []
  | some b => b.getList sel

/-- Update the list named by `sel` of the pair's book (no-op when the book
does not exist, mirroring that JS mutates through an existing reference). -/
def setList (s : EngineState) (key : String) (sel : BookList) (l : List String) :
    EngineState :=
  match aget s.orderBooks key with
  | none => s
  | some b => { s with orderBooks := aset s.orderBooks key (b.setList sel l) }

/-- ASCII lowering of one character (`String.prototype.toLowerCase`),
written structurally so that it evaluates inside the kernel. -/
def charLower (c : Char) : Char :=
  if 'A' ≤ c ∧ c ≤ 'Z' then Char.ofNat (c.toNat + 32) else c

/-- Structural string lowercase. -/
def strLower (s : String) : String := ⟨s.data.map charLower⟩

/-- Split a character list on `'-'`, preserving empty pieces
(`String.prototype.split('-')`). -/
def splitCharsOnDash : List Char → List (List Char)
  | [] => [[]]
  | c :: rest =>
    let r := splitCharsOnDash rest
    if c = '-' then [] :: r
    else
      match r with
      | [] => [[c]]
      | g :: gs => (c :: g) :: gs

/-- Structural `split('-')` on strings. -/
def splitDash (s : String) : List String := (splitCharsOnDash s.data).map String.mk

/-- `_getPairKey` (matching.service.js 671-673). -/
def getPairKey (baseToken quoteToken : String) : String :=
  strLower baseToken ++ "-" ++ strLower quoteToken

/-- `_getOrCreateOrderBook` (matching.service.js 675-687); books created by
`_emptyBook` always carry the market queues, so the patch branch for legacy
books is a no-op in the model. -/
def getOrCreateOrderBook (s : EngineState) (key : String) : EngineState :=
  match aget s.orderBooks key with
  | some _ => s
  | none => { s with orderBooks := aset s.orderBooks key {} }

/-- `maxTradeHistory` (matching.service.js 26). -/
def maxTradeHistory : ℕ := 200

/-- `MARKET_BUY_PRICE_IMPACT_RATE` (matching.service.js 19). -/
def MARKET_BUY_PRICE_IMPACT_RATE : ℚ := 1

/-- `_recordTrade` (matching.service.js 739-745). -/
def recordTrade (s : EngineState) (key : String) (trade : Trade) : EngineState :=
  let s := getOrCreateOrderBook s key
  match aget s.orderBooks key with
  | none => s
  | some b =>
    let ts := b.trades ++ [trade]
    let ts := if maxTradeHistory < ts.length then ts.drop 1 else ts
    { s with orderBooks := aset s.orderBooks key { b with trades := ts } }

/-- `_removeOrderFromList` (matching.service.js 713-723): remove the first
entry with the given id, reporting whether one was found. -/
def removeOrderFromList : List String → String → List String × Bool
  | [], _ => ([], false)
  | x :: xs, id =>
    if x = id then (xs, true)
    else
      let r := removeOrderFromList xs id
      (x :: r.1, r.2)

/-- `getMarketPrice` (matching.service.js 75-81). -/
def getMarketPrice (s : EngineState) (baseToken quoteToken : String) : Option ℚ :=
  if baseToken = "" ∨ quoteToken = "" then none
  else aget s.marketPrices (getPairKey baseToken quoteToken)

/-- `getMarketPriceSnapshotFromKey` (matching.service.js 91-110).  Stored
meta always carries a source and a valid date; `previousPrice` is stored
already filtered to positive values. -/
def getSnapshotFromKey (s : EngineState) (key : String) : Option Snapshot :=
  match aget s.marketPrices key with
  | none => none
  | some price =>
    match aget s.marketPriceMeta key with
    | some m =>
      some { price := price, source := m.source, updatedAt := some m.updatedAt
             previousPrice := m.previousPrice }
    | none =>
      some { price := price, source := "unknown", updatedAt := none, previousPrice := none }

/-! ### Pure matching helpers -/

/-- Caller metadata for `_updateMarketPriceInternal` (matching.service.js 834). -/
structure UpdMeta where
  source : Option String := none
  updatedAt : Option ℕ := none
  previousPrice : Option ℚ := none
  skipStopTrigger : Bool := false
deriving DecidableEq, Repr

/-- The result of `_normalizeMarketMetadata` (matching.service.js 747-759). -/
structure NormMeta where
  source : Option String := none
  updatedAt : Option ℕ := none
  previousPrice : Option ℚ := none
deriving DecidableEq, Repr

/-- `_normalizeMarketMetadata` (matching.service.js 747-759): keep a
non-blank source, a valid date, and a positive previous price. -/
def normalizeMarketMetadata (source : Option String) (updatedAt : Option ℕ)
    (previousPrice : Option ℚ) : NormMeta :=
  { source := match source with
      | some t => if t.data.any (fun c0 => !c0.isWhitespace) then some t else none
      | none => none
    updatedAt := updatedAt
    previousPrice := match previousPrice with
      | some p => if 0 < p then some p else none
      | none => none }

/-- `_setMarketPriceEntry` (matching.service.js 761-778). -/
def setMarketPriceEntry (s : EngineState) (key : String) (price : ℚ)
    (m : NormMeta) : EngineState :=
  let s := { s with marketPrices := aset s.marketPrices key price }
  let previousMeta := aget s.marketPriceMeta key
  let source := match m.source with
    | some t => t
    | none => match previousMeta with
      | some pm => pm.source
      | none => "unknown"
  let updatedAt := m.updatedAt.getD s.clock
  let previousPrice := match m.previousPrice with
    | some p => some p
    | none => previousMeta.map (·.price)
  let meta : PriceMeta :=
    { source := source, updatedAt := updatedAt
      previousPrice := previousPrice, price := price }
  { s with marketPriceMeta := aset s.marketPriceMeta key meta }

/-- Price key for `_sortOrders` (matching.service.js 653-654): `price ?? 0`;
missing records (impossible in JS, which sorts live objects) also read 0. -/
def priceKey (s : EngineState) (id : String) : ℚ :=
  match getOrd s id with
  | some o => o.price.getD 0
  | none => 0

/-- `createdAt` key for `_sortOrders` tie-breaks (matching.service.js 665-667). -/
def timeKey (s : EngineState) (id : String) : ℕ :=
  match getOrd s id with
  | some o => o.createdAt
  | none => 0

/-- The `_sortOrders` comparator (matching.service.js 652-669) as a strict
"sorts before" test: best price first, earlier `createdAt` on ties. -/
def sortBefore (s : EngineState) (side : Side) (x y : String) : Bool :=
  let px := priceKey s x
  let py := priceKey s y
  match side with
  | .BUY => if px ≠ py then py < px else timeKey s x < timeKey s y
  | .SELL => if px ≠ py then px < py else timeKey s x < timeKey s y

/-- Stable insertion used to model the (stable) JS array sort. -/
def insertSorted (s : EngineState) (side : Side) (x : String) :
    List String → List String
  | [] => [x]
  | y :: ys => if sortBefore s side x y then x :: y :: ys else y :: insertSorted s side x ys

/-- `_sortOrders` (matching.service.js 652-669): stable sort of a book list
under the price-time comparator. -/
def sortOrders (s : EngineState) (side : Side) (l : List String) : List String :=
  l.foldl (fun acc x => insertSorted s side x acc) []

/-- Defunctionalized `canMatch` predicates passed to `_matchOrder`
(matching.service.js 304, 308-310, 452, 472).  `buyBelow`/`sellAbove` carry
the taker's price; the JS comparison against a `null` taker price coerces
`null` to `0`. -/
inductive Pred where
  | always
  | buyBelow (takerPrice : Option ℚ)
  | sellAbove (takerPrice : Option ℚ)
deriving DecidableEq, Repr

/-- Evaluate a `canMatch` predicate on a maker record. -/
def evalPred (p : Pred) (maker : Order) : Bool :=
  match p with
  | .always => true
  | .buyBelow tp =>
    match maker.price with
    | none => false
    | some mp => mp ≤ tp.getD 0
  | .sellAbove tp =>
    match maker.price with
    | none => false
    | some mp => tp.getD 0 ≤ mp

/-- `_calculateFillableVolume` (matching.service.js 621-630): sum `remaining`
along the list until the predicate first fails. -/
def calculateFillableVolume (s : EngineState) (p : Pred) : List String → ℚ
  | [] => 0
  | id :: rest =>
    match getOrd s id with
    | none => 0
    | some o =>
      if evalPred p o then o.remaining + calculateFillableVolume s p rest else 0

/-- `_determineTradePrice` (matching.service.js 725-737). -/
def determineTradePrice (s : EngineState) (taker maker : Order) (key : String) : ℚ :=
  match maker.price with
  | some p => p
  | none =>
    match taker.price with
    | some p => p
    | none =>
      match getSnapshotFromKey s key with
      | some sn => sn.price
      | none => 0

/-- `_resolveOrderPrice` (matching.service.js 357-370): the order's positive
price, else a positive `metadata.price`, else `null`. -/
def resolveOrderPrice (o : Order) : Option ℚ :=
  match o.price with
  | some p => if 0 < p then some p else resolveMeta o
  | none => resolveMeta o
where
  /-- the `metadata.price` fallback of `_resolveOrderPrice`. -/
  resolveMeta (o : Order) : Option ℚ :=
    match o.metadata.price with
    | some p => if 0 < p then some p else none
    | none => none

/-- `_shouldUseSyntheticLiquidity` (matching.service.js 372-394). -/
def shouldUseSyntheticLiquidity (s : EngineState) (o : Order) : Bool :=
  if o.orderType ≠ .MARKET then false
  else
    match resolveOrderPrice o with
    | none => false
    | some _ =>
      match o.metadata.priceSource with
      | some t =>
        if strLower t = "synthetic" then true else syntheticPairMeta s o
      | none => syntheticPairMeta s o
where
  /-- the `marketPriceMeta` source test of `_shouldUseSyntheticLiquidity`. -/
  syntheticPairMeta (s : EngineState) (o : Order) : Bool :=
    match aget s.marketPriceMeta (getPairKey o.baseToken o.quoteToken) with
    | some m => strLower m.source = "synthetic"
    | none => false

/-- `_shouldTriggerStop` (matching.service.js 912-932); the `previousPrice`
argument of the source is unused by its body.  SELL triggers at or below the
stop, BUY at or above. -/
def shouldTriggerStop (o : Order) (price : ℚ) : Bool :=
  match o.stopPrice with
  | none => false
  | some stop => if o.isSell then price ≤ stop else stop ≤ price

/-- The trigger context built by `_buildTriggerContext`
(matching.service.js 934-951). -/
structure TriggerCtx where
  price : Option ℚ
  source : String
  timestamp : ℕ
  previousPrice : Option ℚ
deriving DecidableEq, Repr

/-- `_buildTriggerContext` (matching.service.js 934-951). -/
def buildTriggerContext (snap : Option Snapshot) (fallbackPrice : ℚ)
    (previousPrice : Option ℚ) (now : ℕ) : TriggerCtx :=
  let triggerPrice : ℚ :=
    match snap with
    | some sn => if 0 < sn.price then sn.price else fallbackPrice
    | none => fallbackPrice
  let triggerSource :=
    match snap with
    | some sn => sn.source
    | none => "trigger"
  let triggerTimestamp :=
    match snap with
    | some sn => sn.updatedAt.getD now
    | none => now
  { price := if 0 < triggerPrice then some triggerPrice else none
    source := triggerSource
    timestamp := triggerTimestamp
    previousPrice :=
      match previousPrice with
      | some p =>
        if 0 < p then some p else snapPrev snap
      | none => snapPrev snap }
where
  /-- the `snapshot?.previousPrice > 0` fallback. -/
  snapPrev : Option Snapshot → Option ℚ
  | some sn =>
    match sn.previousPrice with
    | some p => if 0 < p then some p else none
    | none => none
  | none => none

/-- `_prepareTriggeredStopMetadata` (matching.service.js 1037-1058). -/
def prepareTriggeredStopMetadata (o : Order) (ctx : TriggerCtx) (now : ℕ) : Order :=
  let triggerPrice : Option ℚ :=
    match ctx.price with
    | some p => if 0 < p then some p else none
    | none => none
  let triggerSource := if ctx.source ≠ "" then ctx.source else "trigger"
  let triggerTimestamp := ctx.timestamp
  let md := o.metadata
  let md :=
    match triggerPrice with
    | some p =>
      let md := { md with triggeredPrice := some p }
      match md.price with
      | some q => if 0 < q then md else { md with price := some p }
      | none => { md with price := some p }
    | none => md
  let md := { md with triggerSource := some triggerSource, triggeredAtMeta := some triggerTimestamp }
  let md :=
    match md.priceSource with
    | some _ => md
    | none => { md with priceSource := some triggerSource }
  let _ := now
  ({ o with metadata := md }).markTriggered triggerTimestamp

/-- `_requiresFullFill` (matching.service.js 1213-1224). -/
def requiresFullFill (o : Order) : Bool :=
  o.timeInForce == .FOK || !o.allowPartialFill

/-- `_determineTriggeredStopFillAmount` (matching.service.js 1183-1211). -/
def determineTriggeredStopFillAmount (buyOrder sellOrder : Order) : ℚ :=
  let maxFill := min buyOrder.remaining sellOrder.remaining
  if maxFill ≤ 0 then 0
  else if requiresFullFill buyOrder ∧ sellOrder.remaining < buyOrder.remaining then 0
  else if requiresFullFill sellOrder ∧ buyOrder.remaining < sellOrder.remaining then 0
  else if matchMinAbove buyOrder maxFill then 0
  else if matchMinAbove sellOrder maxFill then 0
  else if requiresFullFill buyOrder then buyOrder.remaining
  else if requiresFullFill sellOrder then sellOrder.remaining
  else maxFill
where
  /-- `Number.isFinite(minFillAmount) && minFillAmount > maxFill`. -/
  matchMinAbove (o : Order) (maxFill : ℚ) : Bool :=
    match o.minFillAmount with
    | some m => maxFill < m
    | none => false

/-- `_resolveTriggeredTradePrice` (matching.service.js 1156-1181). -/
def resolveTriggeredTradePrice (s : EngineState) (buyOrder sellOrder : Order)
    (key : String) (ctx : TriggerCtx) : Option ℚ :=
  match ctx.price with
  | some p => if 0 < p then some p else rest
  | none => rest
where
  /-- the stop-price / snapshot fallbacks. -/
  rest : Option ℚ :=
    let buyStop : Option ℚ :=
      match buyOrder.stopPrice with
      | some p => if 0 < p then some p else none
      | none => none
    let sellStop : Option ℚ :=
      match sellOrder.stopPrice with
      | some p => if 0 < p then some p else none
      | none => none
    match buyStop, sellStop with
    | some b, some c => some ((b + c) / 2)
    | some b, none => some b
    | none, some c => some c
    | none, none =>
      match getSnapshotFromKey s key with
      | some sn => if 0 < sn.price then some sn.price else none
      | none => none

/-- `_determineTriggeredStopMaker` (matching.service.js 1226-1247): the maker
is the order created first (`ℕ` timestamps are always finite, so the
non-finite fallbacks of the source are dead); returns `true` when the buy
order is the maker. -/
def triggeredStopMakerIsBuy (buyOrder sellOrder : Order) : Bool :=
  buyOrder.createdAt ≤ sellOrder.createdAt

/-- `_restOnBook` (matching.service.js 632-640). -/
def restOnBook (s : EngineState) (key : String) (sel : BookList) (side : Side)
    (orderId : String) : EngineState :=
  let l := getList s key sel
  let l := if orderId ∈ l then l else l ++ [orderId]
  let s := setList s key sel l
  let s :=
    match getOrd s orderId with
    | some o => if o.filled = 0 then putOrd s { o with status := .PENDING } else s
    | none => s
  setList s key sel (sortOrders s side (getList s key sel))

/-- `_restMarketOrder` (matching.service.js 642-650). -/
def restMarketOrder (s : EngineState) (key : String) (orderId : String) : EngineState :=
  match getOrd s orderId with
  | none => s
  | some o =>
    let sel := if o.isBuy then BookList.marketBuy else BookList.marketSell
    let l := getList s key sel
    let s := setList s key sel (if orderId ∈ l then l else l ++ [orderId])
    let o := { o with status := if 0 < o.filled then Status.PARTIAL else Status.PENDING }
    let o := { o with metadata := { o.metadata with restedAt := some (o.metadata.restedAt.getD s.clock) } }
    putOrd s o

/-! ### Price-oracle model (price-oracle.service.js)

`normalizeAddress` canonicalizes an address via the external `ethers`
checksum routine, with a lowercase fallback; both are case-canonical forms,
and the model uses lowercase throughout.  The only behavioural difference —
which of the two sort orders of a pair the canonical key picks — only swaps
the internal orientation label, which no claim observes. -/

/-- `normalizeAddress` (price-oracle.service.js 5-14), modelled as the
lowercase canonical form. -/
def normalizeAddressO (address : String) : String := strLower address

/-- The descriptor built by `_getCanonicalDescriptor`
(price-oracle.service.js 126-137). -/
structure PairDescriptor where
  key : String
  tokenA : String
  tokenB : String
  forward : Bool
deriving DecidableEq, Repr

/-- `_getCanonicalDescriptor` (price-oracle.service.js 126-137). -/
def getCanonicalDescriptor (baseToken quoteToken : String) : Option PairDescriptor :=
  let b := normalizeAddressO baseToken
  let q := normalizeAddressO quoteToken
  if b = "" ∨ q = "" ∨ b = q then none
  else
    let tokenA := if b ≤ q then b else q
    let tokenB := if b ≤ q then q else b
    some { key := tokenA ++ "-" ++ tokenB, tokenA := tokenA, tokenB := tokenB
           forward := b = tokenA }

/-- `minPrice` of the oracle (price-oracle.service.js 95). -/
def oracleMinPrice : ℚ := 1 / 10 ^ 12

/-- `maxPrice` of the oracle (price-oracle.service.js 96). -/
def oracleMaxPrice : ℚ := 10 ^ 12

/-- `_getPriceFromState` (price-oracle.service.js 174-185). -/
def getPriceFromState (st : PairState) (forward : Bool) : Option ℚ :=
  if st.price ≤ 0 then none
  else if forward then some st.price
  else some (1 / st.price)

/-- `_clampPrice` (price-oracle.service.js 187-198). -/
def clampPriceO (v : ℚ) : Option ℚ :=
  if v ≤ 0 then none
  else if v < oracleMinPrice then some oracleMinPrice
  else if oracleMaxPrice < v then some oracleMaxPrice
  else some v

/-- `_computeVolumeWeight` (price-oracle.service.js 200-210). -/
def computeVolumeWeight (liquidityScore notionalVolume : ℚ) : ℚ :=
  if notionalVolume ≤ 0 then 1 / 20
  else
    let baseLiquidity := if 0 < liquidityScore then liquidityScore else 1000
    min (17 / 20) (max (1 / 20) (notionalVolume / (baseLiquidity + notionalVolume)))

/-- `_ensurePairState` (price-oracle.service.js 139-172); returns the
descriptor, the (possibly fresh) state, and the updated table. -/
def ensurePairState (oracle : List (String × PairState)) (baseToken quoteToken : String)
    (fallbackPrice : Option ℚ) (now : ℕ) :
    Option (PairDescriptor × PairState × List (String × PairState)) :=
  match getCanonicalDescriptor baseToken quoteToken with
  | none => none
  | some d =>
    match aget oracle d.key with
    | some st => some (d, st, oracle)
    | none =>
      let canonicalPrice : ℚ :=
        match fallbackPrice with
        | some p => if 0 < p then p else 1
        | none => 1
      let canonicalPrice := if d.forward then canonicalPrice else 1 / canonicalPrice
      let st : PairState :=
        { tokenA := d.tokenA, tokenB := d.tokenB
          price := canonicalPrice, baselinePrice := canonicalPrice
          liquidityScore := 1000, lastUpdatedAt := now
          lastSource := "synthetic", lastSide := none }
      some (d, st, aset oracle d.key st)

/-- The trade payload the engine passes to `registerTrade`; every call site
of matching.service.js supplies all five fields. -/
structure OracleTrade where
  price : ℚ
  baseAmount : ℚ
  quoteAmount : ℚ
  side : Side
  source : String
deriving DecidableEq, Repr

/-- `registerTrade` (price-oracle.service.js 212-295). -/
def registerTrade (oracle : List (String × PairState)) (baseToken quoteToken : String)
    (t : OracleTrade) (now : ℕ) : List (String × PairState) :=
  let baseAddress := normalizeAddressO baseToken
  let quoteAddress := normalizeAddressO quoteToken
  if baseAddress = "" ∨ quoteAddress = "" ∨ baseAddress = quoteAddress then oracle
  else
    let resolvedBaseAmount : Option ℚ := if 0 < t.baseAmount then some t.baseAmount else none
    let resolvedPrice0 : Option ℚ := if 0 < t.price then some t.price else none
    let resolvedQuoteAmount0 : Option ℚ := if 0 < t.quoteAmount then some t.quoteAmount else none
    let pq : Option ℚ × Option ℚ :=
      match resolvedPrice0, resolvedBaseAmount, resolvedQuoteAmount0 with
      | none, some b, some q => (some (q / b), some q)
      | some p, some b, none => (some p, some (b * p))
      | rp, _, rq => (rp, rq)
    match pq.1 with
    | none => oracle
    | some price =>
      match ensurePairState oracle baseAddress quoteAddress (some price) now with
      | none => oracle
      | some (d, st, oracle) =>
        let canonicalPrice := if d.forward then price else 1 / price
        let notionalVolume : ℚ :=
          match pq.2 with
          | some q => q
          | none =>
            match resolvedBaseAmount with
            | some b => b * price
            | none => 0
        let weight := computeVolumeWeight st.liquidityScore notionalVolume
        let stPrice :=
          if st.price ≤ 0 then canonicalPrice
          else st.price + (canonicalPrice - st.price) * weight
        let directionalSign : ℚ :=
          match t.side with
          | .SELL => if d.forward then -1 else 1
          | .BUY => if d.forward then 1 else -1
        let nudge := min (1 / 4) (weight * (1 / 10))
        let adjusted := stPrice * (1 + directionalSign * nudge)
        let stPrice :=
          match clampPriceO adjusted with
          | some c => c
          | none => stPrice
        let stPrice :=
          match clampPriceO stPrice with
          | some c => c
          | none => canonicalPrice
        let currentLiquidity := if 0 < st.liquidityScore then st.liquidityScore else 1000
        let liquidityScore :=
          currentLiquidity * (17 / 20) + (if 0 < notionalVolume then notionalVolume else 0)
        let st :=
          { st with price := stPrice, liquidityScore := liquidityScore
                    lastUpdatedAt := now
                    lastSource := if t.source ≠ "" then t.source else "synthetic"
                    lastSide := some t.side }
        aset oracle d.key st

/-- The value of `getCachedPairSnapshot` (price-oracle.service.js 99-124). -/
structure OracleSnapshot where
  price : ℚ
  source : String
  updatedAt : Option ℕ
deriving DecidableEq, Repr

/-- `getCachedPairSnapshot` (price-oracle.service.js 99-124). -/
def getCachedPairSnapshot (oracle : List (String × PairState))
    (baseToken quoteToken : String) : Option OracleSnapshot :=
  match getCanonicalDescriptor baseToken quoteToken with
  | none => none
  | some d =>
    match aget oracle d.key with
    | none => none
    | some st =>
      match getPriceFromState st d.forward with
      | none => none
      | some price =>
        some { price := price
               source := if st.lastSource ≠ "" then st.lastSource else "synthetic"
               updatedAt := some st.lastUpdatedAt }

/-! ### The engine's mutually recursive procedures

`_updateMarketPriceInternal`, `_triggerStopOrders`, `_processTriggeredStops`,
`_matchTriggeredStopLoss`, `_handleLimitOrder`, `_handleMarketOrder`,
`_queueStopOrder`, `_matchOrder`, `_fillWithSyntheticLiquidity` and
`_applyMarketBuyImpact` recurse through each other on the JS call stack.
They are embedded as one fuel-indexed dispatcher `run`; with fuel `0` a call
returns the state unchanged, and with enough fuel `run` computes exactly the
source's behaviour.  Named wrappers for the source functions follow. -/

/-- One in-flight engine procedure. -/
inductive Call where
  | updInternal (key : String) (price : ℚ) (md : UpdMeta)
  | trigger (key : String) (price : ℚ) (previousPrice : Option ℚ)
  | processStops (entries : List (String × OrderType)) (key : String) (ctx : TriggerCtx)
  | stopCross (buyQ sellQ : List String) (key : String) (ctx : TriggerCtx)
  | handleLimit (orderId key : String)
  | handleMarket (orderId key : String)
  | queueStop (orderId : String) (sel : BookList) (key : String)
  | matchLoop (takerId : String) (sel : BookList) (key : String) (p : Pred)
  | fillSynthetic (orderId key : String)
  | impact (orderId key : String) (referencePrice baseFilled : ℚ)
  | addOrder (orderId : String)
deriving Repr

/-- The value component of a procedure: the trades it returns
(`_handleLimitOrder` and friends) and/or the per-order trade map
(`_processTriggeredStops`, `_matchTriggeredStopLoss`). -/
structure RunRes where
  trades : List Trade := []
  tradeMap : List (String × List Trade) := []
deriving DecidableEq, Repr

/-- `tradesByOrder.get(id) || []`. -/
def mapGetTrades (m : List (String × List Trade)) (id : String) : List Trade :=
  (aget m id).getD []

/-- Prepend one trade onto an order's entry of a trade map. -/
def mapPrepend (m : List (String × List Trade)) (id : String) (t : Trade) :
    List (String × List Trade) :=
  aset m id (t :: mapGetTrades m id)

/-- `opposite[0] && priceCondition(opposite[0])` of the POST_ONLY pre-check
(matching.service.js 313-314). -/
def bestOppositeSatisfies (s : EngineState) (key : String) (sel : BookList)
    (p : Pred) : Bool :=
  match getList s key sel with
  | [] => false
  | id :: _ =>
    match getOrd s id with
    | some o => evalPred p o
    | none => false

/-- The fuel-indexed dispatcher for the engine's recursive procedures.
Branches cite the matching.service.js lines they transcribe. -/
def run : ℕ → EngineState → Call → EngineState × RunRes
  | 0, s, _ => (s, {})
  | fuel + 1, s, c =>
    match c with
    | .updInternal key price md =>
      -- `_updateMarketPriceInternal` (834-879)
      if price ≤ 0 then (s, {})
      else
        let previousPrice := aget s.marketPrices key
        let norm := normalizeMarketMetadata md.source md.updatedAt previousPrice
        let s := setMarketPriceEntry s key price norm
        let inv : Option (String × ℚ × Option ℚ) :=
          match splitDash key with
          | baseToken :: quoteToken :: _ =>
            if baseToken ≠ "" ∧ quoteToken ≠ "" then
              let inverseKey := getPairKey quoteToken baseToken
              if inverseKey ≠ key then
                some (inverseKey, 1 / price, aget s.marketPrices inverseKey)
              else none
            else none
          | _ => none
        let s :=
          match inv with
          | some (inverseKey, inversePrice, previousInverse) =>
            setMarketPriceEntry s inverseKey inversePrice
              (normalizeMarketMetadata md.source md.updatedAt previousInverse)
          | none => s
        let s :=
          if md.skipStopTrigger then s
          else
            let s :=
              match inv with
              | some (inverseKey, inversePrice, previousInverse) =>
                (run fuel s (.trigger inverseKey inversePrice previousInverse)).1
              | none => s
            (run fuel s (.trigger key price previousPrice)).1
        (s, {})
    | .trigger key price previousPrice =>
      -- `_triggerStopOrders` (881-910)
      match aget s.orderBooks key with
      | none => (s, {})
      | some book =>
        let snap := getSnapshotFromKey s key
        let ctx := buildTriggerContext snap price previousPrice s.clock
        let shouldT : String → Bool := fun id =>
          match getOrd s id with
          | some o => shouldTriggerStop o price
          | none => false
        let trigLoss := book.stopLoss.filter shouldT
        let keepLoss := book.stopLoss.filter (fun id => ¬ shouldT id)
        let trigLimit := book.stopLimit.filter shouldT
        let keepLimit := book.stopLimit.filter (fun id => ¬ shouldT id)
        let book2 := { book with stopLoss := keepLoss, stopLimit := keepLimit }
        let s := { s with orderBooks := aset s.orderBooks key book2 }
        let triggered :=
          trigLoss.map (fun id => (id, OrderType.STOP_LOSS))
            ++ trigLimit.map (fun id => (id, OrderType.STOP_LIMIT))
        if triggered.isEmpty then (s, {})
        else ((run fuel s (.processStops triggered key ctx)).1, {})
    | .processStops entries key ctx =>
      -- `_processTriggeredStops` (963-1035)
      let entries := entries.filter (fun e => (getOrd s e.1).isSome)
      if entries.isEmpty then (s, {})
      else
        let s := entries.foldl
          (fun s e =>
            match getOrd s e.1 with
            | none => s
            | some o =>
              let o := prepareTriggeredStopMetadata o ctx s.clock
              let o :=
                if e.2 == .STOP_LOSS then { o with orderType := OrderType.MARKET }
                else { o with orderType := OrderType.LIMIT }
              putOrd s o) s
        let stopLimitEntries := entries.filter (fun e => e.2 == .STOP_LIMIT)
        let stopLossEntries := entries.filter (fun e => e.2 == .STOP_LOSS)
        let sm := stopLimitEntries.foldl
          (fun sm e =>
            match getOrd sm.1 e.1 with
            | none => sm
            | some o =>
              if o.remaining ≤ 0 then sm
              else
                let sr := run fuel sm.1 (.handleLimit e.1 key)
                if sr.2.trades.isEmpty then (sr.1, sm.2)
                else (sr.1, aset sm.2 e.1 (mapGetTrades sm.2 e.1 ++ sr.2.trades)))
          (s, ([] : List (String × List Trade)))
        let sm :=
          if stopLossEntries.isEmpty then sm
          else
            let s := sm.1
            let buyQ := (stopLossEntries.filter (fun e =>
              match getOrd s e.1 with | some o => o.isBuy | none => false)).map (·.1)
            let sellQ := (stopLossEntries.filter (fun e =>
              match getOrd s e.1 with | some o => o.isSell | none => false)).map (·.1)
            let sr := run fuel s (.stopCross buyQ sellQ key ctx)
            let m := sr.2.tradeMap.foldl
              (fun m p => aset m p.1 (mapGetTrades m p.1 ++ p.2)) sm.2
            stopLossEntries.foldl
              (fun sm e =>
                match getOrd sm.1 e.1 with
                | none => sm
                | some o =>
                  if o.remaining ≤ 0 then sm
                  else
                    let sr := run fuel sm.1 (.handleMarket e.1 key)
                    if sr.2.trades.isEmpty then (sr.1, sm.2)
                    else (sr.1, aset sm.2 e.1 (mapGetTrades sm.2 e.1 ++ sr.2.trades)))
              (sr.1, m)
        let s := entries.foldl
          (fun s e =>
            let ts := mapGetTrades sm.2 e.1
            if ts.isEmpty then s
            else
              match getOrd s e.1 with
              | none => s
              | some o =>
                let existing := o.metadata.trades.getD []
                putOrd s { o with metadata := { o.metadata with trades := some (existing ++ ts) } })
          sm.1
        (s, { tradeMap := sm.2 })
    | .stopCross buyQ sellQ key ctx =>
      -- the `while` loop of `_matchTriggeredStopLoss` (1060-1154)
      match buyQ, sellQ with
      | [], _ => (s, {})
      | _, [] => (s, {})
      | b :: bs, c :: cs =>
        match getOrd s b, getOrd s c with
        | some bo, some so =>
          let fillAmount := determineTriggeredStopFillAmount bo so
          if fillAmount ≤ 0 then
            if so.remaining < bo.remaining then run fuel s (.stopCross (b :: bs) cs key ctx)
            else if bo.remaining < so.remaining then run fuel s (.stopCross bs (c :: cs) key ctx)
            else
              let buyMin := bo.minFillAmount.getD 0
              let sellMin := so.minFillAmount.getD 0
              if sellMin ≤ buyMin then run fuel s (.stopCross bs (c :: cs) key ctx)
              else run fuel s (.stopCross (b :: bs) cs key ctx)
          else
            match resolveTriggeredTradePrice s bo so key ctx with
            | none => (s, {})
            | some tradePrice =>
              if tradePrice ≤ 0 then (s, {})
              else
                let ts := s.clock
                let bo := (bo.recordFill fillAmount (some tradePrice) (some c) ts).2
                let so := (so.recordFill fillAmount (some tradePrice) (some b) ts).2
                let bo := { bo with metadata :=
                  { bo.metadata with lastTradePrice := some tradePrice, lastTradeAt := some ts } }
                let so := { so with metadata :=
                  { so.metadata with lastTradePrice := some tradePrice, lastTradeAt := some ts } }
                let s := putOrd (putOrd s bo) so
                let makerIsBuy := triggeredStopMakerIsBuy bo so
                let tr : Trade :=
                  { price := tradePrice, amount := fillAmount, fillAmount := fillAmount
                    buyOrderId := b, sellOrderId := c
                    makerOrderId := if makerIsBuy then b else c
                    takerOrderId := if makerIsBuy then c else b
                    timestamp := ts }
                let takerIsSell := if makerIsBuy then so.isSell else bo.isSell
                let s := recordTrade s key tr
                let s := (run fuel s (.updInternal key tradePrice
                  { source := some "stop-trigger", skipStopTrigger := true })).1
                let ot : OracleTrade :=
                  { price := tradePrice, baseAmount := fillAmount
                    quoteAmount := fillAmount * tradePrice
                    side := if takerIsSell then Side.SELL else Side.BUY
                    source := "stop-trigger" }
                let s := { s with oracle := registerTrade s.oracle bo.baseToken bo.quoteToken ot s.clock }
                let buyQ2 := if bo.remaining ≤ 0 then bs else b :: bs
                let sellQ2 := if so.remaining ≤ 0 then cs else c :: cs
                let sr := run fuel s (.stopCross buyQ2 sellQ2 key ctx)
                (sr.1, { tradeMap := mapPrepend (mapPrepend sr.2.tradeMap c tr) b tr })
        | _, _ => (s, {})
    | .handleLimit orderId key =>
      -- `_handleLimitOrder` (299-355)
      match getOrd s orderId with
      | none => (s, {})
      | some order =>
        let restingSel := if order.isBuy then BookList.marketSell else BookList.marketBuy
        let sr1 :=
          if getList s key restingSel ≠ [] then run fuel s (.matchLoop orderId restingSel key .always)
          else (s, {})
        let s := sr1.1
        let trades1 := sr1.2.trades
        let oppositeSel := if order.isBuy then BookList.sell else BookList.buy
        let p := if order.isBuy then Pred.buyBelow order.price else Pred.sellAbove order.price
        let order := (getOrd s orderId).getD order
        if order.timeInForce == TIF.POST_ONLY ∧ bestOppositeSatisfies s key oppositeSel p then
          let md := { order.metadata with rejectReason := some "POST_ONLY_WOULD_TRADE" }
          (putOrd s { order with status := .REJECTED, metadata := md }, {})
        else
          let totalFillable :=
            calculateFillableVolume s .always (getList s key restingSel)
              + calculateFillableVolume s p (getList s key oppositeSel)
          if (order.timeInForce == TIF.FOK || !order.allowPartialFill)
              ∧ totalFillable < order.remaining then
            let md := { order.metadata with
              rejectReason := some "INSUFFICIENT_LIQUIDITY"
              availableVolume := some totalFillable }
            (putOrd s { order with status := .REJECTED, metadata := md }, {})
          else
            let sr2 := run fuel s (.matchLoop orderId oppositeSel key p)
            let s := sr2.1
            let trades := trades1 ++ sr2.2.trades
            let order := (getOrd s orderId).getD order
            let s :=
              if 0 < order.remaining then
                if order.timeInForce == TIF.IOC then
                  let md := { order.metadata with
                    unfilledAmount := some order.remaining
                    cancelReason := some "IOC_UNFILLED" }
                  let st := if (0 : ℚ) < order.filled then Status.PARTIAL else Status.REJECTED
                  putOrd s { order with status := st, metadata := md }
                else if order.timeInForce == TIF.FOK || !order.allowPartialFill then
                  let md := { order.metadata with unfilledAmount := some order.remaining }
                  let st := if (0 : ℚ) < order.filled then Status.PARTIAL else Status.REJECTED
                  putOrd s { order with status := st, metadata := md }
                else
                  restOnBook s key (if order.isBuy then .buy else .sell) order.side orderId
              else putOrd s { order with status := .FILLED }
            (s, { trades := trades })
    | .handleMarket orderId key =>
      -- `_handleMarketOrder` (447-498)
      match getOrd s orderId with
      | none => (s, {})
      | some order =>
        let restingSel := if order.isBuy then BookList.marketSell else BookList.marketBuy
        let sr1 :=
          if getList s key restingSel ≠ [] then run fuel s (.matchLoop orderId restingSel key .always)
          else (s, {})
        let s := sr1.1
        let trades1 := sr1.2.trades
        let oppositeSel := if order.isBuy then BookList.sell else BookList.buy
        let order := (getOrd s orderId).getD order
        let totalFillable :=
          calculateFillableVolume s .always (getList s key restingSel)
            + calculateFillableVolume s .always (getList s key oppositeSel)
        if (order.timeInForce == TIF.FOK || !order.allowPartialFill)
            ∧ totalFillable < order.remaining
            ∧ ¬ shouldUseSyntheticLiquidity s order then
          let md := { order.metadata with
            rejectReason := some "INSUFFICIENT_LIQUIDITY"
            availableVolume := some totalFillable }
          (putOrd s { order with status := .REJECTED, metadata := md }, {})
        else
          let sr2 :=
            if 0 < order.remaining then run fuel s (.matchLoop orderId oppositeSel key .always)
            else (s, {})
          let s := sr2.1
          let order := (getOrd s orderId).getD order
          let sr3 :=
            if 0 < order.remaining ∧ shouldUseSyntheticLiquidity s order then
              run fuel s (.fillSynthetic orderId key)
            else (s, {})
          let s := sr3.1
          let trades := trades1 ++ sr2.2.trades ++ sr3.2.trades
          let order := (getOrd s orderId).getD order
          let s :=
            if 0 < order.remaining then
              let md0 := { order.metadata with unfilledAmount := some order.remaining }
              let order := { order with metadata := md0 }
              if order.timeInForce == TIF.IOC then
                let md := { order.metadata with cancelReason := some "IOC_UNFILLED" }
                let st := if (0 : ℚ) < order.filled then Status.PARTIAL else Status.REJECTED
                putOrd s { order with status := st, metadata := md }
              else if order.timeInForce == TIF.FOK || !order.allowPartialFill then
                let st := if (0 : ℚ) < order.filled then Status.PARTIAL else Status.REJECTED
                putOrd s { order with status := st }
              else restMarketOrder (putOrd s order) key orderId
            else putOrd s { order with status := .FILLED }
          (s, { trades := trades })
    | .queueStop orderId sel key =>
      -- `_queueStopOrder` (500-559)
      match getOrd s orderId with
      | none => (s, {})
      | some order =>
        if order.stopPrice = none then
          let md := { order.metadata with rejectReason := some "INVALID_STOP_PRICE" }
          (putOrd s { order with status := .REJECTED, metadata := md }, {})
        else
          let mdQ := { order.metadata with queuedAt := some s.clock }
          let order := { order with status := .PENDING, metadata := mdQ }
          let s := putOrd s order
          let s := setList s key sel (getList s key sel ++ [orderId])
          let snap0 := getSnapshotFromKey s key
          let needPromote :=
            match snap0 with
            | none => true
            | some sn => sn.price ≤ 0
          let s :=
            if needPromote then
              match getCachedPairSnapshot s.oracle order.baseToken order.quoteToken with
              | some os =>
                (run fuel s (.updInternal key os.price
                  { source := some os.source, updatedAt := os.updatedAt })).1
              | none => s
            else s
          match getSnapshotFromKey s key with
          | none => (s, {})
          | some sn =>
            let currentPrice := sn.price
            let previousPrice : Option ℚ :=
              match sn.previousPrice with
              | some q => if 0 < q then some q else none
              | none => none
            let order := (getOrd s orderId).getD order
            if 0 < currentPrice ∧ shouldTriggerStop order currentPrice then
              let s := setList s key sel (removeOrderFromList (getList s key sel) orderId).1
              let ctx := buildTriggerContext (some sn) currentPrice previousPrice s.clock
              let stopType :=
                if sel == BookList.stopLoss then OrderType.STOP_LOSS else OrderType.STOP_LIMIT
              let sr := run fuel s (.processStops [(orderId, stopType)] key ctx)
              (sr.1, { trades := mapGetTrades sr.2.tradeMap orderId })
            else (s, {})
    | .matchLoop takerId sel key p =>
      -- the `while` loop of `_matchOrder` (561-619)
      match getOrd s takerId with
      | none => (s, {})
      | some taker =>
        if taker.remaining ≤ 0 then (s, {})
        else
          match getList s key sel with
          | [] => (s, {})
          | makerId :: _ =>
            match getOrd s makerId with
            | none => (s, {})
            | some maker =>
              if ¬ evalPred p maker then (s, {})
              else
                let fillAmount := min taker.remaining maker.remaining
                if fillAmount ≤ 0 then (s, {})
                else
                  let tradePrice := determineTradePrice s taker maker key
                  let ts := s.clock
                  let maker := (maker.recordFill fillAmount (some tradePrice) (some takerId) ts).2
                  let taker := (taker.recordFill fillAmount (some tradePrice) (some makerId) ts).2
                  let maker := { maker with metadata :=
                    { maker.metadata with lastTradePrice := some tradePrice, lastTradeAt := some ts } }
                  let taker := { taker with metadata :=
                    { taker.metadata with lastTradePrice := some tradePrice, lastTradeAt := some ts } }
                  let s := putOrd (putOrd s maker) taker
                  let tr : Trade :=
                    { price := tradePrice, amount := fillAmount, fillAmount := fillAmount
                      buyOrderId := if taker.isBuy then takerId else makerId
                      sellOrderId := if taker.isSell then takerId else makerId
                      makerOrderId := makerId, takerOrderId := takerId, timestamp := ts }
                  let s := recordTrade s key tr
                  let s := (run fuel s (.updInternal key tradePrice { source := some "orderbook" })).1
                  let s := (run fuel s (.impact takerId key tradePrice fillAmount)).1
                  let s := (run fuel s (.impact makerId key tradePrice fillAmount)).1
                  let ot : OracleTrade :=
                    { price := tradePrice, baseAmount := fillAmount
                      quoteAmount := fillAmount * tradePrice
                      side := if taker.isSell then Side.SELL else Side.BUY
                      source := "orderbook" }
                  let s := { s with oracle := registerTrade s.oracle taker.baseToken taker.quoteToken ot s.clock }
                  let makerRem := ((getOrd s makerId).map Order.remaining).getD 0
                  let s :=
                    if makerRem ≤ 0 then
                      match getList s key sel with
                      | [] => s
                      | _ :: rest => setList s key sel rest
                    else s
                  let sr := run fuel s (.matchLoop takerId sel key p)
                  (sr.1, { trades := tr :: sr.2.trades })
    | .fillSynthetic orderId key =>
      -- `_fillWithSyntheticLiquidity` (396-445)
      match getOrd s orderId with
      | none => (s, {})
      | some order =>
        match resolveOrderPrice order with
        | none => (s, {})
        | some price =>
          let baseRemaining := order.remaining
          if baseRemaining ≤ 0 then (s, {})
          else
            let ts := s.clock
            let counterpartyId := "synthetic-liquidity-" ++ toString s.uid
            let s := { s with uid := s.uid + 1 }
            let order := (order.recordFill baseRemaining (some price) (some counterpartyId) ts).2
            let quoteAmount := baseRemaining * price
            let tr : Trade :=
              { price := price, amount := baseRemaining, fillAmount := baseRemaining
                buyOrderId := if order.isBuy then orderId else counterpartyId
                sellOrderId := if order.isSell then orderId else counterpartyId
                makerOrderId := counterpartyId, takerOrderId := orderId, timestamp := ts
                synthetic := true, syntheticCounterparty := some counterpartyId
                syntheticQuoteAmount := some quoteAmount }
            let order := { order with metadata :=
              { order.metadata with syntheticFill := some counterpartyId } }
            let s := putOrd s order
            let s := recordTrade s key tr
            let s := (run fuel s (.updInternal key price
              { source := some "synthetic", skipStopTrigger := true })).1
            let s := (run fuel s (.impact orderId key price baseRemaining)).1
            let ot : OracleTrade :=
              { price := price, baseAmount := baseRemaining, quoteAmount := quoteAmount
                side := if order.isSell then Side.SELL else Side.BUY
                source := "synthetic" }
            let s := { s with oracle := registerTrade s.oracle order.baseToken order.quoteToken ot s.clock }
            (s, { trades := [tr] })
    | .impact orderId key referencePrice baseFilled =>
      -- `_applyMarketBuyImpact` (780-832)
      match getOrd s orderId with
      | none => (s, {})
      | some order =>
        if ¬ (order.isBuy ∧ order.orderType == OrderType.MARKET) then (s, {})
        else if baseFilled ≤ 0 then (s, {})
        else
          let impactAmt := baseFilled * MARKET_BUY_PRICE_IMPACT_RATE
          if impactAmt ≤ 0 then (s, {})
          else
            let baselineOpt : Option ℚ :=
              if 0 < referencePrice then some referencePrice
              else
                match getSnapshotFromKey s key with
                | some sn => if 0 < sn.price then some sn.price else none
                | none => none
            match baselineOpt with
            | none => (s, {})
            | some baselinePrice =>
              let boostedPrice := baselinePrice + impactAmt
              if boostedPrice ≤ baselinePrice then (s, {})
              else
                let s := (run fuel s (.updInternal key boostedPrice
                  { source := some "market-buy-impact", previousPrice := some baselinePrice })).1
                let ot : OracleTrade :=
                  { price := boostedPrice, baseAmount := baseFilled
                    quoteAmount := baseFilled * boostedPrice
                    side := Side.BUY, source := "market-buy-impact" }
                let s := { s with oracle := registerTrade s.oracle order.baseToken order.quoteToken ot s.clock }
                (s, {})
    | .addOrder orderId =>
      -- `addOrder` (29-64); enum fields arrive already normalized
      match getOrd s orderId with
      | none => (s, {})
      | some order =>
        if order.baseToken = "" ∨ order.quoteToken = "" then (s, {})
        else
          let key := getPairKey order.baseToken order.quoteToken
          let s := getOrCreateOrderBook s key
          let sr :=
            match order.orderType with
            | .MARKET => run fuel s (.handleMarket orderId key)
            | .STOP_LOSS => run fuel s (.queueStop orderId .stopLoss key)
            | .STOP_LIMIT => run fuel s (.queueStop orderId .stopLimit key)
            | .LIMIT => run fuel s (.handleLimit orderId key)
          let s := sr.1
          let s :=
            if sr.2.trades.isEmpty then s
            else
              match getOrd s orderId with
              | some o =>
                putOrd s { o with metadata := { o.metadata with trades := some sr.2.trades } }
              | none => s
          (s, sr.2)

/-! ### Public engine operations -/

/-- `_updateMarketPriceInternal` (matching.service.js 834-879). -/
def updateMarketPriceInternal (fuel : ℕ) (s : EngineState) (key : String)
    (price : ℚ) (md : UpdMeta) : EngineState :=
  (run fuel s (.updInternal key price md)).1

/-- `addOrder` (matching.service.js 29-64); the argument is the id of the
registered record, mirroring the shared object reference. -/
def addOrder (fuel : ℕ) (s : EngineState) (orderId : String) : EngineState :=
  (run fuel s (.addOrder orderId)).1

/-- `updateMarketPrice` (matching.service.js 66-73): public entry, throws on
a non-positive price. -/
def updateMarketPrice (fuel : ℕ) (s : EngineState) (baseToken quoteToken : String)
    (price : ℚ) : Except String EngineState :=
  let pairKey := getPairKey baseToken quoteToken
  if price ≤ 0 then .error "Invalid market price"
  else .ok (updateMarketPriceInternal fuel s pairKey price { source := some "external" })

/-- `cancelOrder` (matching.service.js 124-140): remove the order from the
`buy`, `sell`, `stopLoss` and `stopLimit` lists of its pair's book
(the source does not touch `marketBuy`/`marketSell`). -/
def cancelOrder (s : EngineState) (orderId : String) : EngineState × Bool :=
  match getOrd s orderId with
  | none => (s, false)
  | some order =>
    let pairKey := getPairKey order.baseToken order.quoteToken
    match aget s.orderBooks pairKey with
    | none => (s, false)
    | some book =>
      let r1 := removeOrderFromList book.buy orderId
      let r2 := removeOrderFromList book.sell orderId
      let r3 := removeOrderFromList book.stopLoss orderId
      let r4 := removeOrderFromList book.stopLimit orderId
      let book := { book with buy := r1.1, sell := r2.1, stopLoss := r3.1, stopLimit := r4.1 }
      ({ s with orderBooks := aset s.orderBooks pairKey book }, r1.2 || r2.2 || r3.2 || r4.2)

/-- `OrderService.cancelOrder(id, reason)` (order.service.js 343-356):
no-op on terminal statuses, otherwise engine-cancel then mark CANCELLED. -/
def serviceCancelOrder (s : EngineState) (id : String) (reason : String) : EngineState :=
  match getOrd s id with
  | none => s
  | some order =>
    if order.status ∈ [Status.CANCELLED, Status.FILLED, Status.REJECTED, Status.EXPIRED] then s
    else
      let s := (cancelOrder s id).1
      match getOrd s id with
      | some o => putOrd s (o.cancelMark reason s.clock)
      | none => s

/-- `_cleanupOrderFromBooks` (matching.service.js 1249-1267). -/
def cleanupOrderFromBooks (s : EngineState) (orderId : String) : EngineState :=
  match getOrd s orderId with
  | none => s
  | some order =>
    if order.baseToken = "" ∨ order.quoteToken = "" then s
    else
      let pairKey := getPairKey order.baseToken order.quoteToken
      match aget s.orderBooks pairKey with
      | none => s
      | some book =>
        let book :=
          if order.isBuy then
            { book with buy := (removeOrderFromList book.buy orderId).1
                        marketBuy := (removeOrderFromList book.marketBuy orderId).1 }
          else
            { book with sell := (removeOrderFromList book.sell orderId).1
                        marketSell := (removeOrderFromList book.marketSell orderId).1 }
        let book := { book with stopLoss := (removeOrderFromList book.stopLoss orderId).1
                                stopLimit := (removeOrderFromList book.stopLimit orderId).1 }
        { s with orderBooks := aset s.orderBooks pairKey book }

/-! ### Batch executor (`executeBatchTrades`, matching.service.js 142-283)

Errors thrown by the source are returned as `Except.error` together with the
state at the moment of the throw (fills applied before the throw persist,
exactly as the JS exception leaves them). -/

/-- A normalized batch leg (`_normalizeBatchOrder`, matching.service.js
1276-1318). -/
structure BatchEntry where
  orderId : String
  price : ℚ
  rate : ℚ
  offerToken : String
  requestToken : String
  offerTokenRaw : String
  requestTokenRaw : String
  offerRemaining : ℚ
  isSell : Bool
  allowPartialFill : Bool
deriving DecidableEq, Repr

/-- `_normalizeBatchOrder` (matching.service.js 1276-1318); a missing id
reports the order-service lookup failure (order.service.js 430-433). -/
def normalizeBatchOrder (s : EngineState) (orderId : String) : Except String BatchEntry :=
  match getOrd s orderId with
  | none => .error "Order not found"
  | some order =>
    if order.remaining ≤ 0 then .error "Order has no remaining amount"
    else if order.status ∈ [Status.CANCELLED, Status.FILLED, Status.REJECTED, Status.EXPIRED] then
      .error "Order is not active"
    else
      match order.price with
      | none => .error "Order must specify a valid price for batch execution"
      | some price =>
        if price ≤ 0 then .error "Order must specify a valid price for batch execution"
        else
          let offerToken := if order.isSell then order.baseToken else order.quoteToken
          let requestToken := if order.isSell then order.quoteToken else order.baseToken
          if offerToken = "" ∨ requestToken = "" then .error "Order is missing token information"
          else
            let offerRemaining := if order.isSell then order.remaining else order.remaining * price
            let rate := if order.isSell then price else 1 / price
            if rate ≤ 0 then .error "Order has an invalid conversion rate"
            else
              .ok { orderId := orderId, price := price, rate := rate
                    offerToken := strLower offerToken, requestToken := strLower requestToken
                    offerTokenRaw := offerToken, requestTokenRaw := requestToken
                    offerRemaining := offerRemaining
                    isSell := order.isSell, allowPartialFill := order.allowPartialFill }

/-- Normalize every leg, stopping at the first failure (the `map` of
matching.service.js 148). -/
def normalizeBatchOrders (s : EngineState) : List String → Except String (List BatchEntry)
  | [] => .ok []
  | id :: rest => do
    let e ← normalizeBatchOrder s id
    let es ← normalizeBatchOrders s rest
    .ok (e :: es)

/-- The ring-closure check (matching.service.js 150-156):
`current.requestToken == next.offerToken` with wrap-around. -/
def ringClosed : List BatchEntry → BatchEntry → Bool
  | [], _ => true
  | [e], first => e.requestToken == first.offerToken
  | e :: e2 :: rest, first => e.requestToken == e2.offerToken && ringClosed (e2 :: rest) first

/-- The offer/request computation loop (matching.service.js 185-201):
`offer[0] = maxOffer`, `request[i] = offer[i] × rate[i]`,
`offer[i+1] = request[i]`. -/
def computeBatchAmounts : List BatchEntry → ℚ → Except String (List (ℚ × ℚ))
  | [], _ => .ok []
  | e :: rest, offerAmount =>
    if offerAmount ≤ 0 then .error "Batch execution amount must be positive"
    else
      let request := offerAmount * e.rate
      match rest with
      | [] => .ok [(offerAmount, request)]
      | _ => (computeBatchAmounts rest request).map ((offerAmount, request) :: ·)

/-- The `cumulativeRate` bound of matching.service.js 171-179, returning the
final `maxOffer` (the per-step positivity check cannot fail over `ℚ` with
positive rates and remainders but is kept). -/
def batchMaxOffer : List BatchEntry → ℚ → ℚ → Except String ℚ
  | [], _, maxOffer => .ok maxOffer
  | e :: rest, cumulativeRate, maxOffer =>
    let candidate := e.offerRemaining / cumulativeRate
    if candidate ≤ 0 then .error "Batch execution lacks sufficient liquidity"
    else batchMaxOffer rest (cumulativeRate * e.rate) (min maxOffer candidate)

/-- The result object of `executeBatchTrades` (matching.service.js 276-282);
`orders` returns the mutated records, modelled by their ids. -/
structure BatchResult where
  batchId : String
  offerAmounts : List ℚ
  requestAmounts : List ℚ
  trades : List Trade
  orderIds : List String
deriving DecidableEq, Repr

/-- The execution loop of `executeBatchTrades` (matching.service.js
212-274): each element carries the leg, its `(offer, request)` amounts, the
next leg's order id and its index. -/
def batchExecLoop (fuel : ℕ) (batchId : String) (timestamp : ℕ) (tolerance : ℚ) :
    EngineState → List (BatchEntry × (ℚ × ℚ) × String × ℕ) →
    EngineState × Except String (List Trade)
  | s, [] => (s, .ok [])
  | s, (entry, amounts, nextId, index) :: rest =>
    match getOrd s entry.orderId with
    | none => (s, .error "Order not found")
    | some order =>
      let offerAmount := amounts.1
      let requestAmount := amounts.2
      let baseFilled := if entry.isSell then offerAmount else requestAmount
      if order.remaining + tolerance < baseFilled then
        (s, .error "Batch execution overfills an order")
      else if entry.allowPartialFill = false ∧ tolerance < |baseFilled - order.remaining| then
        (s, .error "Batch execution would only partially fill an all-or-nothing order")
      else
        let fr := order.recordFill baseFilled (some entry.price) (some nextId) timestamp
        let order := fr.2
        let order :=
          match fr.1 with
          | some _ =>
            match order.executions.reverse with
            | [] => order
            | last :: before =>
              let last := { last with batchId := some batchId
                                      offerAmount := some offerAmount
                                      receiveAmount := some requestAmount }
              { order with executions := (last :: before).reverse }
          | none => order
        let note : BatchExecutionNote :=
          { batchId := batchId, index := index
            offerToken := entry.offerTokenRaw, requestToken := entry.requestTokenRaw
            offerAmount := offerAmount, receiveAmount := requestAmount
            executedAt := timestamp }
        let md := { order.metadata with
          batchExecutions := some (order.metadata.batchExecutions.getD [] ++ [note]) }
        let order := { order with metadata := md }
        let s := putOrd s order
        let tradeRecord : Trade :=
          { price := entry.price, amount := baseFilled, fillAmount := baseFilled
            buyOrderId := if order.isBuy then entry.orderId else nextId
            sellOrderId := if order.isSell then entry.orderId else nextId
            makerOrderId := entry.orderId, takerOrderId := nextId
            timestamp := timestamp, batchId := some batchId }
        let pairKey := getPairKey order.baseToken order.quoteToken
        let s := recordTrade s pairKey tradeRecord
        let s := updateMarketPriceInternal fuel s pairKey entry.price { source := some "batch" }
        let ot : OracleTrade :=
          { price := entry.price, baseAmount := baseFilled
            quoteAmount := baseFilled * entry.price
            side := if order.isSell then Side.SELL else Side.BUY
            source := "batch" }
        let s := { s with oracle := registerTrade s.oracle order.baseToken order.quoteToken ot s.clock }
        let s :=
          match getOrd s entry.orderId with
          | some live => if live.remaining ≤ tolerance then cleanupOrderFromBooks s entry.orderId else s
          | none => s
        let sr := batchExecLoop fuel batchId timestamp tolerance s rest
        (sr.1, sr.2.map (tradeRecord :: ·))

/-- `executeBatchTrades` (matching.service.js 142-283).  The returned state
is the one at completion or at the throw. -/
def executeBatchTrades (fuel : ℕ) (s : EngineState) (orderIds : List String)
    (toleranceOpt : Option ℚ) : EngineState × Except String BatchResult :=
  if orderIds.length < 2 then (s, .error "Batch execution requires at least two orders")
  else
    let tolerance := match toleranceOpt with
      | some t => |t|
      | none => 1 / 10 ^ 8
    match normalizeBatchOrders s orderIds with
    | .error e => (s, .error e)
    | .ok [] => (s, .error "Batch execution requires at least two orders")
    | .ok (first :: more) =>
      if ¬ ringClosed (first :: more) first then
        (s, .error "Batch orders must form a closed token loop")
      else
        let totalRate := ((first :: more).map (·.rate)).foldl (· * ·) 1
        if totalRate ≤ 0 then
          (s, .error "Batch orders produce an invalid aggregate conversion rate")
        else if tolerance < |totalRate - 1| then
          (s, .error "Batch orders do not balance; aggregate conversion rate must be 1")
        else if first.offerRemaining ≤ 0 then
          (s, .error "Batch execution requires remaining liquidity")
        else
          match batchMaxOffer more first.rate first.offerRemaining with
          | .error e => (s, .error e)
          | .ok maxOffer =>
            if maxOffer ≤ 0 then (s, .error "Batch execution lacks sufficient liquidity")
            else
              match computeBatchAmounts (first :: more) maxOffer with
              | .error e => (s, .error e)
              | .ok amounts =>
                let offerAmounts := amounts.map (·.1)
                let requestAmounts := amounts.map (·.2)
                let finalRequest := (requestAmounts.reverse.headD 0)
                if tolerance < |finalRequest - maxOffer| then
                  (s, .error "Batch orders cannot settle without imbalance")
                else
                  let batchId := "batch-" ++ toString s.uid
                  let s := { s with uid := s.uid + 1 }
                  let timestamp := s.clock
                  let entries := first :: more
                  let ids := entries.map (·.orderId)
                  let nextIds := ids.drop 1 ++ ids.take 1
                  let legs := (entries.zip (amounts.zip (nextIds.zip
                    (List.range entries.length)))).map
                    (fun p => (p.1, p.2.1, p.2.2.1, p.2.2.2))
                  let sr := batchExecLoop fuel batchId timestamp tolerance s legs
                  match sr.2 with
                  | .error e => (sr.1, .error e)
                  | .ok trades =>
                    (sr.1, .ok { batchId := batchId, offerAmounts := offerAmounts
                                 requestAmounts := requestAmounts, trades := trades
                                 orderIds := ids })

/-! ### Order-book snapshots (engine 285-297, 689-711; order.service.js
391-403, 487-508) -/

/-- A value of the serialized order-book object: a list of serialized order
records (stood for by their ids) or the trade history. -/
inductive SerValue where
  | orders (ids : List String)
  | tradeList (ts : List Trade)
deriving DecidableEq, Repr

/-- `_cloneBook` (matching.service.js 701-711): shallow copies of all seven
collections. -/
def cloneBook (b : Book) : Book := b

/-- The engine's `getOrderBook(base, quote)` for a named pair
(matching.service.js 285-290). -/
def engineGetOrderBook (s : EngineState) (baseToken quoteToken : String) : Book :=
  match aget s.orderBooks (getPairKey baseToken quoteToken) with
  | some b => cloneBook b
  | none => {}

/-- `OrderService._serializeOrderBook` (order.service.js 487-508), as the
key/value object it constructs. -/
def serializeOrderBook : Option Book → List (String × SerValue)
  | none =>
    [("buy", .orders []), ("sell", .orders []), ("stopLoss", .orders []),
     ("stopLimit", .orders []), ("trades", .tradeList [])]
  | some b =>
    [("buy", .orders b.buy), ("sell", .orders b.sell), ("stopLoss", .orders b.stopLoss),
     ("stopLimit", .orders b.stopLimit), ("trades", .tradeList b.trades)]

/-- `OrderService.getOrderBook(base, quote)` for a named pair
(order.service.js 391-396): serialize the engine snapshot. -/
def serviceGetOrderBook (s : EngineState) (baseToken quoteToken : String) :
    List (String × SerValue) :=
  serializeOrderBook (some (engineGetOrderBook s baseToken quoteToken))

/-! ### SHA-256 (for the deterministic unit-value oracle)

`deterministicMultiplier` hashes its seed with SHA-256 and reads the first
32-bit big-endian word (`hash.readUInt32BE(0)`).  The hash is embedded over
`ℕ` words reduced mod `2^32`; strings are carried as ASCII byte lists. -/

namespace SHA256

/-- 32-bit mask. -/
def mask32 : ℕ := 2 ^ 32 - 1

/-- Addition mod `2^32`. -/
def add32 (a b : ℕ) : ℕ := (a + b) % 2 ^ 32

/-- Right rotation of a 32-bit word. -/
def rotr (n x : ℕ) : ℕ := ((x >>> n) ||| (x <<< (32 - n))) &&& mask32

/-- σ₀. -/
def smallSigma0 (x : ℕ) : ℕ := (rotr 7 x) ^^^ (rotr 18 x) ^^^ (x >>> 3)

/-- σ₁. -/
def smallSigma1 (x : ℕ) : ℕ := (rotr 17 x) ^^^ (rotr 19 x) ^^^ (x >>> 10)

/-- Σ₀. -/
def bigSigma0 (x : ℕ) : ℕ := (rotr 2 x) ^^^ (rotr 13 x) ^^^ (rotr 22 x)

/-- Σ₁. -/
def bigSigma1 (x : ℕ) : ℕ := (rotr 6 x) ^^^ (rotr 11 x) ^^^ (rotr 25 x)

/-- Choice. -/
def choose (x y z : ℕ) : ℕ := (x &&& y) ^^^ ((x ^^^ mask32) &&& z)

/-- Majority. -/
def major (x y z : ℕ) : ℕ := (x &&& y) ^^^ (x &&& z) ^^^ (y &&& z)

/-- Big-endian byte expansion of the low `k` bytes. -/
def beBytes : ℕ → ℕ → List ℕ
  | 0, _ => []
  | k + 1, n => beBytes k (n / 256) ++ [n % 256]

/-- SHA-256 padding: `0x80`, zeros to 56 mod 64, 64-bit big-endian length. -/
def pad (msg : List ℕ) : List ℕ :=
  let len := msg.length
  let zeros := (120 - ((len + 1) % 64)) % 64
  msg ++ [0x80] ++ List.replicate zeros 0 ++ beBytes 8 (8 * len)

/-- Big-endian 32-bit words of a byte list. -/
def toWords : List ℕ → List ℕ
  | b1 :: b2 :: b3 :: b4 :: rest =>
    (((b1 * 256 + b2) * 256 + b3) * 256 + b4) :: toWords rest
  | _ => []

/-- Message-schedule extension: prepend `k` further words onto the reversed
schedule. -/
def extendLoop : ℕ → List ℕ → List ℕ
  | 0, rw => rw
  | k + 1, rw =>
    let next :=
      add32 (add32 (smallSigma1 (rw.getD 1 0)) (rw.getD 6 0))
        (add32 (smallSigma0 (rw.getD 14 0)) (rw.getD 15 0))
    extendLoop k (next :: rw)

/-- Expand a 16-word block to the 64-word schedule. -/
def schedule (w16 : List ℕ) : List ℕ := (extendLoop 48 w16.reverse).reverse

/-- The 64 round constants. -/
def K : List ℕ :=
  [1116352408, 1899447441, 3049323471, 3921009573, 961987163, 1508970993,
   2453635748, 2870763221, 3624381080, 310598401, 607225278, 1426881987,
   1925078388, 2162078206, 2614888103, 3248222580, 3835390401, 4022224774,
   264347078, 604807628, 770255983, 1249150122, 1555081692, 1996064986,
   2554220882, 2821834349, 2952996808, 3210313671, 3336571891, 3584528711,
   113926993, 338241895, 666307205, 773529912, 1294757372, 1396182291,
   1695183700, 1986661051, 2177026350, 2456956037, 2730485921, 2820302411,
   3259730800, 3345764771, 3516065817, 3600352804, 4094571909, 275423344,
   430227734, 506948616, 659060556, 883997877, 958139571, 1322822218,
   1537002063, 1747873779, 1955562222, 2024104815, 2227730452, 2361852424,
   2428436474, 2756734187, 3204031479, 3329325298]

/-- The initial hash words. -/
def H0 : List ℕ :=
  [1779033703, 3144134277, 1013904242, 2773480762,
   1359893119, 2600822924, 528734635, 1541459225]

/-- The working state of the compression rounds. -/
structure St where
  a : ℕ
  b : ℕ
  c : ℕ
  d : ℕ
  e : ℕ
  f : ℕ
  g : ℕ
  h : ℕ

/-- The 64 compression rounds, consuming schedule and constants in step. -/
def rounds : List ℕ → List ℕ → St → St
  | w :: ws, k :: ks, st =>
    let t1 := add32 st.h (add32 (bigSigma1 st.e) (add32 (choose st.e st.f st.g) (add32 k w)))
    let t2 := add32 (bigSigma0 st.a) (major st.a st.b st.c)
    rounds ws ks
      { a := add32 t1 t2, b := st.a, c := st.b, d := st.c
        e := add32 st.d t1, f := st.e, g := st.f, h := st.g }
  | _, _, st => st

/-- Compress one 16-word block into the running 8-word hash. -/
def compress (h : List ℕ) (block : List ℕ) : List ℕ :=
  let w := schedule block
  match h with
  | [a0, b0, c0, d0, e0, f0, g0, h0] =>
    let st := rounds w K { a := a0, b := b0, c := c0, d := d0, e := e0, f := f0, g := g0, h := h0 }
    [add32 a0 st.a, add32 b0 st.b, add32 c0 st.c, add32 d0 st.d,
     add32 e0 st.e, add32 f0 st.f, add32 g0 st.g, add32 h0 st.h]
  | _ => h

/-- Fold the given number of 16-word blocks. -/
def sha256Blocks : ℕ → List ℕ → List ℕ → List ℕ
  | 0, _, h => h
  | n + 1, ws, h => sha256Blocks n (ws.drop 16) (compress h (ws.take 16))

/-- The first 32-bit big-endian word of the SHA-256 digest of a byte string
(`hash.readUInt32BE(0)`). -/
def sha256hi32 (msg : List ℕ) : ℕ :=
  let ws := toWords (pad msg)
  (sha256Blocks (ws.length / 16) ws H0).headD 0

end SHA256

/-! ### Deterministic unit-value oracle (price-oracle.service.js 16-70) -/

/-- ASCII uppercase of a byte string (`String.prototype.toUpperCase`). -/
def upperBytes (l : List ℕ) : List ℕ :=
  l.map (fun c0 => if 97 ≤ c0 ∧ c0 ≤ 122 then c0 - 32 else c0)

/-- The bytes of the literal `'synthetic-price'`. -/
def syntheticPriceSeed : List ℕ :=
  [115, 121, 110, 116, 104, 101, 116, 105, 99, 45, 112, 114, 105, 99, 101]

/-- `deterministicMultiplier` (price-oracle.service.js 36-47) over the
already-normalized address bytes and the raw symbol/name bytes (the source
normalizes the address with `normalizeAddress` and uppercases symbol and
name before seeding). -/
def deterministicMultiplier (address symbol name : List ℕ) : ℚ :=
  let symbolU := upperBytes symbol
  let nameU := upperBytes name
  let seed := address ++ [0x7c] ++ symbolU ++ [0x7c] ++ nameU
  let seed := if seed = [] then syntheticPriceSeed else seed
  let bucket := SHA256.sha256hi32 seed
  let fraction : ℚ := (bucket : ℚ) / 0xffffffff
  let base : ℚ := 1 / 2 + fraction * (3 / 2)
  let symbolFactor : ℚ :=
    if symbolU ≠ [] then 1 + ((symbolU.length % 5 : ℕ) : ℚ) * (1 / 20) else 1
  base * symbolFactor

/-- `parseSupply` (price-oracle.service.js 16-34) at its output precision:
the externally parsed supply when known and positive, else `null`
(`BigInt`/`formatUnits` are external `ethers` calls). -/
def parseSupply (supply : Option ℚ) : Option ℚ :=
  match supply with
  | some v => if 0 < v then some v else none
  | none => none

/-- `deriveUnitValue` (price-oracle.service.js 49-70). -/
def deriveUnitValue (supply : Option ℚ) (address symbol name : List ℕ) : ℚ :=
  let supplyP := parseSupply supply
  let intrinsicOpt : Option ℚ :=
    match supplyP with
    | some v => if 0 < v then some (1 / v) else none
    | none => none
  let intrinsic : ℚ :=
    match intrinsicOpt with
    | some i => if 0 < i then i else 1
    | none => 1
  let intrinsic := intrinsic * deterministicMultiplier address symbol name
  let intrinsic := if 0 < intrinsic then intrinsic else 1
  let clampMin : ℚ := 1 / 10 ^ 12
  let clampMax : ℚ := 10 ^ 12
  if intrinsic < clampMin then clampMin
  else if clampMax < intrinsic then clampMax
  else intrinsic

/-- The clamp of claim C6: `clamp(x, 10^-12, 10^12)`. -/
def clampC6 (x : ℚ) : ℚ := max (1 / 10 ^ 12) (min (10 ^ 12) x)

/-- The spec's reference unit value, written from the words of claim C6:
`uv(T) = clamp(m(T) × base(T), 10^-12, 10^12)` with
`base(T) = 1/totalSupply(T)` when the supply is known and positive else `1`,
`m(T) = (0.5 + f) × (1 + (len(symbol) mod 5)×0.05)` and
`f = hi32(SHA-256(addr|SYMBOL|NAME)) / 2^32`. -/
def uvSpecC6 (supply : Option ℚ) (address symbol name : List ℕ) : ℚ :=
  let baseT : ℚ :=
    match supply with
    | some v => if 0 < v then 1 / v else 1
    | none => 1
  let f : ℚ :=
    (SHA256.sha256hi32 (address ++ [0x7c] ++ upperBytes symbol ++ [0x7c] ++ upperBytes name) : ℚ)
      / 2 ^ 32
  let m : ℚ := (1 / 2 + f) * (1 + ((symbol.length % 5 : ℕ) : ℚ) * (1 / 20))
  clampC6 (m * baseT)

/-- The amended reference unit value: as claim C6 but with the code's
multiplier — `m(T) = (0.5 + f × 1.5) × (1 + (len(symbol) mod 5)×0.05)` for a
non-empty symbol (factor 1 otherwise) and `f = hi32 / 0xffffffff ∈ [0,1]`. -/
def uvAmendedC6 (supply : Option ℚ) (address symbol name : List ℕ) : ℚ :=
  let baseT : ℚ :=
    match supply with
    | some v => if 0 < v then 1 / v else 1
    | none => 1
  let f : ℚ :=
    (SHA256.sha256hi32 (address ++ [0x7c] ++ upperBytes symbol ++ [0x7c] ++ upperBytes name) : ℚ)
      / 0xffffffff
  let m : ℚ :=
    (1 / 2 + f * (3 / 2)) *
      (if symbol ≠ [] then 1 + ((symbol.length % 5 : ℕ) : ℚ) * (1 / 20) else 1)
  clampC6 (m * baseT)

/-! ### Concrete scenario states for the claims

`mkOrder` builds a record exactly as `OrderService.createOrder` constructs a
fresh one (models/Order.js constructor on a prepared draft: `filled = 0`,
status `PENDING`, empty metadata and executions).  `addRegistered` is the
service's store-then-match sequence (order.service.js 314-316). -/

/-- A freshly constructed order record. -/
def mkOrder (id trader baseToken quoteToken : String) (side : Side)
    (price : Option ℚ) (amount : ℚ) (orderType : OrderType) (tif : TIF)
    (stopPrice : Option ℚ) (createdAt : ℕ) : Order :=
  { id := id, trader := trader, baseToken := baseToken, quoteToken := quoteToken
    side := side, price := price, amount := amount, filled := 0
    status := .PENDING, orderType := orderType, timeInForce := tif
    stopPrice := stopPrice, allowPartialFill := true, minFillAmount := none
    createdAt := createdAt, updatedAt := createdAt, triggeredAt := none
    metadata := {}, executions := [] }

/-- Store a record in the registry, then run the matching engine on it
(order.service.js 314-316). -/
def addRegistered (fuel : ℕ) (s : EngineState) (o : Order) : EngineState :=
  addOrder fuel (putOrd s o) o.id

/-- Resting BUY limit 1 @ 5 on the TOKA/TOKB pair. -/
def scenarioL : Order := mkOrder "L" "0x1" "TOKA" "TOKB" .BUY (some 5) 1 .LIMIT .GTC none 0

/-- SELL stop-loss 1 @ stop 10 on the same pair. -/
def scenarioA : Order := mkOrder "A" "0x2" "TOKA" "TOKB" .SELL none 1 .STOP_LOSS .GTC (some 10) 1

/-- SELL stop-loss 1 @ stop 6 on the same pair. -/
def scenarioB : Order := mkOrder "B" "0x3" "TOKA" "TOKB" .SELL none 1 .STOP_LOSS .GTC (some 6) 2

/-- The state after submitting L, A and B (no market price yet: both stops
rest in `stopLoss`, the limit rests on `buy`). -/
def c4State1 : EngineState :=
  addRegistered 20 (addRegistered 20 (addRegistered 20 {} scenarioL) scenarioA) scenarioB

/-- The state immediately after the single call
`updateMarketPrice(TOKA, TOKB, 9)` on `c4State1`.  The update triggers stop
A (9 ≤ 10); A is routed through the MARKET path and fills against L at L's
price 5; that fill updates the market price with source `orderbook` and no
`skipStopTrigger`, re-scanning the stop lists inside the same call. -/
def c4State2 : EngineState :=
  match updateMarketPrice 20 c4State1 "TOKA" "TOKB" 9 with
  | .ok s => s
  | .error _ => c4State1

/-- A BUY MARKET 5 order that rests on the `marketBuy` queue (no opposite
liquidity on its pair). -/
def c1MarketOrder : Order := mkOrder "M" "0x4" "TOKC" "TOKD" .BUY none 5 .MARKET .GTC none 0

/-- State with the market order resting on `marketBuy` (status PENDING). -/
def c1State1 : EngineState := addRegistered 20 {} c1MarketOrder

/-- State after `OrderService.cancelOrder("M")`. -/
def c1State2 : EngineState := serviceCancelOrder c1State1 "M" "USER_CANCELLED"

/-- The registered record of the resting market order in `c1State1`. -/
def c1RegOrder : Order := (getOrd c1State1 "M").getD c1MarketOrder

/-- The TOKC/TOKD book of `c1State1`. -/
def c1RegBook : Book := (aget c1State1.orderBooks "tokc-tokd").getD {}

/-- Batch leg 0: resting SELL 1 TA @ 2 (offers TA, requests TB). -/
def c2Sell : Order := mkOrder "X" "0x6" "TA" "TB" .SELL (some 2) 1 .LIMIT .GTC none 0

/-- Batch leg 1: BUY 5 TA @ 2 with `allowPartialFill = false` (offers TB,
requests TA). -/
def c2Buy : Order :=
  { mkOrder "Y" "0x7" "TA" "TB" .BUY (some 2) 5 .LIMIT .GTC none 1 with
    allowPartialFill := false }

/-- Registry holding the two batch legs (both PENDING and unfilled). -/
def c2State : EngineState := { reg := [("X", c2Sell), ("Y", c2Buy)] }

/-- The batch call on the two legs: leg X fills fully, then leg Y raises the
all-or-nothing error. -/
def c2Run : EngineState × Except String BatchResult :=
  executeBatchTrades 20 c2State ["X", "Y"] none

/-- A BUY STOP_LOSS with `stopPrice = 0` on a pair without any price. -/
def c5Stop : Order := mkOrder "S0" "0x5" "TOKE" "TOKF" .BUY none 1 .STOP_LOSS .GTC (some 0) 0

/-- State after submitting the zero-stop-price order. -/
def c5State : EngineState := addRegistered 20 {} c5Stop

/-- A STOP_LOSS order arriving at `addOrder` with a prior fill
(status PARTIAL, filled 3 of 10) — constructible through the service, whose
`Order` constructor accepts caller-supplied `filled`/`status`. -/
def c9Stop : Order :=
  { mkOrder "Z" "0x8" "TI" "TJ" .BUY none 10 .STOP_LOSS .GTC (some 50) 0 with
    status := .PARTIAL, filled := 3 }

/-- Registry holding the PARTIAL stop order (the claim's invariant holds). -/
def c9State1 : EngineState := putOrd {} c9Stop

/-- State after `addOrder("Z")`: `_queueStopOrder` resets the status to
PENDING while `filled = 3`. -/
def c9State2 : EngineState := addOrder 20 c9State1 "Z"

/-! ### The fill/status invariant (claim C9, spec §8) -/

/-- The invariant exactly as claim C9 states it, scoped to records with
status PENDING or PARTIAL. -/
def claimInv (o : Order) : Prop :=
  o.status = .PENDING ∨ o.status = .PARTIAL →
    (0 ≤ o.filled ∧ o.filled ≤ o.amount) ∧
    (o.filled = 0 ↔ o.status = .PENDING) ∧
    (0 < o.filled ∧ o.filled < o.amount ↔ o.status = .PARTIAL) ∧
    (o.filled = o.amount → o.status = .FILLED)

instance (o : Order) : Decidable (claimInv o) := by unfold claimInv; infer_instance

/-- The inductive strengthening of the claim's invariant: positive amount,
non-negative fill, and the two scoped clauses. -/
def ordInv (o : Order) : Prop :=
  0 < o.amount ∧ 0 ≤ o.filled ∧
  (o.status = .PENDING → o.filled = 0) ∧
  (o.status = .PARTIAL → 0 < o.filled ∧ o.filled < o.amount)

instance (o : Order) : Decidable (ordInv o) := by unfold ordInv; infer_instance

/-- Every registered record satisfies the strengthened invariant and is
stored under its own id (every registry write in the source is
`this.orders.set(order.id, order)`). -/
def stateInv (s : EngineState) : Prop := ∀ p ∈ s.reg, p.2.id = p.1 ∧ ordInv p.2

instance (s : EngineState) : Decidable (stateInv s) := by
  unfold stateInv; exact List.decidableBAll _ _

/-- The freshness contract of a procedure: `addOrder`/`_queueStopOrder`
reset stop orders to PENDING, so the record they are handed must be
unfilled; every internal procedure is unconstrained. -/
def callOK (s : EngineState) : Call → Prop
  | .queueStop id _ _ => ∀ o, getOrd s id = some o → o.filled = 0
  | .addOrder id => ∀ o, getOrd s id = some o →
      (o.orderType = .STOP_LOSS ∨ o.orderType = .STOP_LIMIT) → o.filled = 0
  | _ => True

instance {ε α : Type} [DecidableEq ε] [DecidableEq α] : DecidableEq (Except ε α) := fun x y =>
  match x, y with
  | .error a, .error b =>
    match decEq a b with
    | isTrue h => isTrue (h ▸ rfl)
    | isFalse h => isFalse fun hh => h (by cases hh; rfl)
  | .ok a, .ok b =>
    match decEq a b with
    | isTrue h => isTrue (h ▸ rfl)
    | isFalse h => isFalse fun hh => h (by cases hh; rfl)
  | .error _, .ok _ => isFalse fun hh => Except.noConfusion hh
  | .ok _, .error _ => isFalse fun hh => Except.noConfusion hh

/-- A plain order slice for exercising `Order.recordFill` over JS numbers:
amount 10, nothing filled. -/
def c10Order : JsOrder :=
  { amount := .fin 10, filled := .fin 0, status := .PENDING, updatedAt := 0, executions := [] }

/-- The token of claim C6's counterexample: address `0xab` (already in its
lowercase canonical form — `ethers.getAddress` rejects it, so
`normalizeAddress` lowercases), symbol `TT`, name `Test`, unknown supply. -/
def c6Addr : List ℕ := [0x30, 0x78, 0x61, 0x62]

/-- Symbol bytes `TT`. -/
def c6Symbol : List ℕ := [84, 84]

/-- Name bytes `Test`. -/
def c6Name : List ℕ := [84, 101, 115, 116]

/-- A populated book whose market queues are non-empty. -/
def c8Book : Book := { buy := ["b1"], marketBuy := ["m1"], marketSell := ["m2"] }

/-- A state carrying `c8Book` for the TGA/TGB pair. -/
def c8State : EngineState := { orderBooks := [("tga-tgb", c8Book)] }

end Dex

/-! # Theorems

Claim theorems, counterexamples and witnesses.  `Rat`'s arithmetic
operations are made semireducible so that concrete engine runs evaluate
inside the kernel. -/

unseal Rat.add Rat.mul Rat.inv Rat.sub

set_option maxRecDepth 1000000

set_option maxHeartbeats 1000000

namespace Dex

/-- Claim C1 (counterexample): cancelling the resting market order `M`
(status PENDING on `marketBuy`) transitions it to CANCELLED with a cancel
reason, yet its id remains in the book's `marketBuy` list — `cancelOrder`
does not remove market-queue entries, so the order's id does not disappear
from every list of the book as the claim states. -/
theorem c1_counterexample :
    ((getOrd c1State1 "M").map Order.status = some .PENDING) ∧
    ((aget c1State1.orderBooks "tokc-tokd").map Book.marketBuy = some ["M"]) ∧
    ((getOrd c1State2 "M").map Order.status = some .CANCELLED) ∧
    ((getOrd c1State2 "M").map (fun o => o.metadata.cancelReason) =
      some (some "USER_CANCELLED")) ∧
    ((aget c1State2.orderBooks "tokc-tokd").map Book.marketBuy = some ["M"]) := by
  decide

/-- Claim C2 (counterexample): on the two-leg ring X (SELL 1 TA @ 2) and Y
(BUY 5 TA @ 2, all-or-nothing), `executeBatchTrades` raises the
all-or-nothing batch error for leg Y — but leg X, executed first, keeps its
fill: its status moved PENDING → FILLED and `filled` 0 → 1, refuting "no
fills are applied" for this error. -/
theorem c2_counterexample :
    (c2Run.2 = .error "Batch execution would only partially fill an all-or-nothing order") ∧
    ((getOrd c2State "X").map (fun o => (o.status, o.filled, o.executions.length)) =
      some (.PENDING, 0, 0)) ∧
    ((getOrd c2Run.1 "X").map (fun o => (o.status, o.filled, o.executions.length)) =
      some (.FILLED, 1, 1)) := by
  decide

/-- Claim C4 (counterexample): in the single call
`updateMarketPrice(TOKA, TOKB, 9)` on `c4State1`, stop A (stop 10) triggers
and is routed through the MARKET path, filling against the resting limit L
at price 5; that fill's price update (source `orderbook`, no
`skipStopTrigger`) re-scans the stop lists and triggers stop B (stop 6,
untouched by the price 9 itself): afterwards B has left `stopLoss`, was
marked triggered and rests on `marketSell` — re-entrant stop triggering
within one call. -/
theorem c4_counterexample :
    ((aget c4State1.orderBooks "toka-tokb").map Book.stopLoss = some ["A", "B"]) ∧
    ((getOrd c4State1 "B").map (fun o => o.triggeredAt) = some none) ∧
    ((getOrd c4State2 "B").map (fun o => (o.status, o.orderType, o.triggeredAt.isSome)) =
      some (.PENDING, .MARKET, true)) ∧
    ((aget c4State2.orderBooks "toka-tokb").map (fun b => (b.stopLoss, b.marketSell)) =
      some ([], ["B"])) := by
  decide

/-- Claim C5 (counterexample): a BUY STOP_LOSS with `stopPrice = 0` is not
rejected: `_queueStopOrder` only rejects a null (or NaN) stop price, so the
order is accepted with status PENDING and appended to the `stopLoss`
queue. -/
theorem c5_counterexample :
    ((getOrd c5State "S0").map (fun o => (o.stopPrice, o.status)) =
      some (some 0, .PENDING)) ∧
    ((getOrd c5State "S0").map Order.status ≠ some .REJECTED) ∧
    ((aget c5State.orderBooks "toke-tokf").map Book.stopLoss = some ["S0"]) := by
  decide

/-- Claim C6 (counterexample): for the token with address `0xab`, symbol
`TT`, name `Test` and unknown supply, the code's unit value differs from the
claim's reference formula — the implementation computes
`0.5 + f × 1.5` with `f = hi32/0xffffffff`, not `0.5 + f` with
`f = hi32/2^32`. -/
theorem c6_counterexample :
    deriveUnitValue none c6Addr c6Symbol c6Name ≠ uvSpecC6 none c6Addr c6Symbol c6Name := by
  decide

/-- Claim C7 (counterexample): after `updateMarketPrice(TOKA, TOKB, 9)` on
`c4State1`, the reported inverse price is `1/5`, not `1/9`: the update
triggered stop A, whose routed fill at the resting limit's price 5
overwrote both orientations before the call returned. -/
theorem c7_counterexample :
    ((updateMarketPrice 20 c4State1 "TOKA" "TOKB" 9).toOption.map
      (fun s2 => getMarketPrice s2 "TOKB" "TOKA") = some (some (1 / 5))) ∧
    ((updateMarketPrice 20 c4State1 "TOKA" "TOKB" 9).toOption.map
      (fun s2 => getMarketPrice s2 "TOKB" "TOKA") ≠ some (some (1 / 9))) := by
  decide

/-- Claim C8 (counterexample): the order-book snapshot the order service
returns to the HTTP layer carries exactly the keys `buy`, `sell`,
`stopLoss`, `stopLimit`, `trades` — `marketBuy` and `marketSell` are absent
even though the engine's book holds them (here `marketBuy = [m1]`). -/
theorem c8_counterexample :
    ((serviceGetOrderBook c8State "TGA" "TGB").map Prod.fst =
      ["buy", "sell", "stopLoss", "stopLimit", "trades"]) ∧
    ("marketBuy" ∉ (serviceGetOrderBook c8State "TGA" "TGB").map Prod.fst) ∧
    ("marketSell" ∉ (serviceGetOrderBook c8State "TGA" "TGB").map Prod.fst) ∧
    ((engineGetOrderBook c8State "TGA" "TGB").marketBuy = ["m1"]) := by
  decide

/-- Claim C9 (counterexample): the pre-state registry (one PARTIAL stop
order, filled 3 of 10) satisfies the claim's invariant, but after
`addOrder` the record is PENDING with `filled = 3`:
`_queueStopOrder` sets status PENDING unconditionally, breaking
`filled = 0 ⇔ status = PENDING`. -/
theorem c9_counterexample :
    (∀ p ∈ c9State1.reg, claimInv p.2) ∧
    ((getOrd c9State2 "Z").map (fun o => (o.status, o.filled)) = some (.PENDING, 3)) ∧
    ¬ (∀ p ∈ c9State2.reg, claimInv p.2) := by
  decide

/-- Claim C10 (counterexample): `Infinity` is not a positive finite number,
yet `recordFill` does not return null for it: the NaN-or-nonpositive guard
lets it through, an execution is appended and `filled` becomes
`Infinity`. -/
theorem c10_counterexample :
    ((c10Order.recordFill .posInf none none 1).1 ≠ none) ∧
    ((c10Order.recordFill .posInf none none 1).2.filled = .posInf) ∧
    ((c10Order.recordFill .posInf none none 1).2.executions.length = 1) ∧
    ((c10Order.recordFill .posInf none none 1).2.status = .FILLED) := by
  decide

/-! ## Helper lemmas -/

theorem aget_aset_self {α : Type} (l : List (String × α)) (k : String) (v : α) :
    aget (aset l k v) k = some v := by
  induction l with
  | nil => simp [aset, aget]
  | cons p rest ih =>
    by_cases h : p.1 = k
    · simp [aset, aget, h]
    · obtain ⟨k0, v0⟩ := p
      simp only at h
      simp [aset, aget, h, ih]

theorem aget_aset_ne {α : Type} (l : List (String × α)) (k k2 : String) (v : α)
    (h : k2 ≠ k) : aget (aset l k v) k2 = aget l k2 := by
  have hne : k ≠ k2 := fun hh => h hh.symm
  induction l with
  | nil => simp [aset, aget, hne]
  | cons p rest ih =>
    obtain ⟨k0, v0⟩ := p
    by_cases h0 : k0 = k
    · subst h0
      simp [aset, aget, hne]
    · simp [aset, aget, h0, ih]

/-- `setMarketPriceEntry` touches only the price tables. -/
theorem setMarketPriceEntry_orderBooks (s : EngineState) (k : String) (p : ℚ)
    (m : NormMeta) : (setMarketPriceEntry s k p m).orderBooks = s.orderBooks := rfl

/-- `setMarketPriceEntry` touches only the price tables. -/
theorem setMarketPriceEntry_reg (s : EngineState) (k : String) (p : ℚ)
    (m : NormMeta) : (setMarketPriceEntry s k p m).reg = s.reg := rfl

/-- Removing an id that occurs at most once removes it entirely
(matching.service.js 713-723 removes the first occurrence). -/
theorem removeOrderFromList_not_mem (l : List String) (id : String)
    (h : l.count id ≤ 1) : id ∉ (removeOrderFromList l id).1 := by
  induction l with
  | nil => simp [removeOrderFromList]
  | cons x xs ih =>
    by_cases hx : x = id
    · subst hx
      simp only [removeOrderFromList, if_pos rfl]
      rw [List.count_cons_self] at h
      have : xs.count x = 0 := by omega
      exact (List.count_eq_zero).1 this
    · simp only [removeOrderFromList, if_neg hx]
      rw [List.count_cons_of_ne (fun hh => hx hh.symm)] at h
      intro hmem
      rcases List.mem_cons.1 hmem with h1 | h1
      · exact hx h1.symm
      · exact ih h h1

theorem except_map_error {ε α β : Type} (f : α → β) (x : Except ε α) (e : ε)
    (h : x.map f = .error e) : x = .error e := by
  cases x with
  | error a => simpa [Except.map] using h
  | ok b => simp [Except.map] at h

theorem batchExecLoop_err (fuel : ℕ) (batchId : String) (ts : ℕ) (tol : ℚ)
    (s : EngineState) (legs : List (BatchEntry × (ℚ × ℚ) × String × ℕ)) (e : String)
    (h : (batchExecLoop fuel batchId ts tol s legs).2 = .error e) :
    e ∈ ["Order not found", "Batch execution overfills an order",
         "Batch execution would only partially fill an all-or-nothing order"] := by
  induction legs generalizing s with
  | nil => simp [batchExecLoop] at h
  | cons leg rest ih =>
    obtain ⟨entry, amounts, nextId, index⟩ := leg
    rw [batchExecLoop] at h
    rcases ho : getOrd s entry.orderId with _ | order
    · rw [ho] at h
      simp at h
      simp [h]
    · rw [ho] at h
      simp only at h
      repeat' split at h
      all_goals
        first
          | (simp only at h
             exact ih _ (except_map_error _ _ _ h))
          | (simp at h
             simp [h])

theorem trigger_preserve (fuel : ℕ) (s : EngineState) (key : String) (p : ℚ) (prev : Option ℚ)
    (h1 : getList s key .stopLoss = []) (h2 : getList s key .stopLimit = []) :
    (run fuel s (.trigger key p prev)).1.marketPrices = s.marketPrices ∧
    (run fuel s (.trigger key p prev)).1.reg = s.reg ∧
    (∀ k2, getList (run fuel s (.trigger key p prev)).1 k2 .stopLoss = getList s k2 .stopLoss) ∧
    (∀ k2, getList (run fuel s (.trigger key p prev)).1 k2 .stopLimit = getList s k2 .stopLimit) := by
  cases fuel with
  | zero => exact ⟨rfl, rfl, fun _ => rfl, fun _ => rfl⟩
  | succ n =>
    simp only [run]
    rcases hob : aget s.orderBooks key with _ | book
    · simp only [hob]
      refine ⟨?_, ?_, ?_, ?_⟩ <;>
        first | trivial | rfl | exact fun k2 => rfl | exact fun k2 => trivial
    · have hbl : book.stopLoss = [] := by
        unfold getList at h1
        rw [hob] at h1
        simpa [Book.getList] using h1
      have hblim : book.stopLimit = [] := by
        unfold getList at h2
        rw [hob] at h2
        simpa [Book.getList] using h2
      simp only [hob, hbl, hblim, List.filter_nil, List.map_nil, List.nil_append,
        List.isEmpty_nil, if_true, ite_true]
      refine ⟨?_, ?_, ?_, ?_⟩
      · first | trivial | rfl
      · first | trivial | rfl
      · intro k2
        by_cases hk : k2 = key
        · subst hk
          simp [getList, aget_aset_self, hob, Book.getList, h1, hbl]
        · simp only [getList, aget_aset_ne _ _ _ _ hk]
      · intro k2
        by_cases hk : k2 = key
        · subst hk
          simp [getList, aget_aset_self, hob, Book.getList, h2, hblim]
        · simp only [getList, aget_aset_ne _ _ _ _ hk]

theorem double_trigger_price (fuel : ℕ) (s2 : EngineState) (key ikey : String)
    (p pr : ℚ) (pv1 pv2 : Option ℚ)
    (h1 : getList s2 ikey .stopLoss = []) (h2 : getList s2 ikey .stopLimit = [])
    (h3 : getList s2 key .stopLoss = []) (h4 : getList s2 key .stopLimit = []) :
    (run fuel (run fuel s2 (.trigger ikey p pv1)).1 (.trigger key pr pv2)).1.marketPrices
      = s2.marketPrices := by
  obtain ⟨hm3, hr3, hsl, hslim⟩ := trigger_preserve fuel s2 ikey p pv1 h1 h2
  obtain ⟨hm4, hr4, hsl4, hslim4⟩ := trigger_preserve fuel _ key pr pv2
    (by rw [hsl key]; exact h3) (by rw [hslim key]; exact h4)
  rw [hm4, hm3]

theorem clamp_if_eq (x : ℚ) :
    (if x < 1 / 10 ^ 12 then 1 / 10 ^ 12
     else if 10 ^ 12 < x then (10 ^ 12 : ℚ) else x) = clampC6 x := by
  simp only [clampC6, max_def, min_def]
  split_ifs <;> first | rfl | linarith

theorem upperBytes_nil (l : List ℕ) : (upperBytes l = []) ↔ l = [] := by
  simp [upperBytes]

theorem upperBytes_len (l : List ℕ) : (upperBytes l).length = l.length := by
  simp [upperBytes]

theorem aget_mem {α : Type} {l : List (String × α)} {k : String} {v : α}
    (h : aget l k = some v) : (k, v) ∈ l := by
  induction l with
  | nil => simp [aget] at h
  | cons p rest ih =>
    obtain ⟨k0, v0⟩ := p
    by_cases hk : k0 = k
    · subst hk
      simp [aget] at h
      simp [h]
    · simp [aget, hk] at h
      exact List.mem_cons_of_mem _ (ih h)

theorem aset_mem {α : Type} {l : List (String × α)} {k : String} {v : α} {p : String × α}
    (h : p ∈ aset l k v) : p = (k, v) ∨ p ∈ l := by
  induction l with
  | nil => simpa [aset] using h
  | cons q rest ih =>
    obtain ⟨k0, v0⟩ := q
    by_cases hk : k0 = k
    · subst hk
      simp only [aset, if_pos rfl] at h
      rcases List.mem_cons.1 h with h | h
      · left
        exact h
      · right
        exact List.mem_cons_of_mem _ h
    · simp only [aset, if_neg hk] at h
      rcases List.mem_cons.1 h with h | h
      · right
        simp [h]
      · rcases ih h with h2 | h2
        · left
          exact h2
        · right
          exact List.mem_cons_of_mem _ h2

theorem stateInv_getOrd {s : EngineState} {id : String} {o : Order}
    (hs : stateInv s) (h : getOrd s id = some o) : o.id = id ∧ ordInv o :=
  hs (id, o) (aget_mem h)

theorem stateInv_putOrd {s : EngineState} {o : Order}
    (hs : stateInv s) (ho : ordInv o) : stateInv (putOrd s o) := by
  intro p hp
  rcases aset_mem hp with h | h
  · subst h
    exact ⟨rfl, ho⟩
  · exact hs p h

theorem ordInv_mk {o o2 : Order} (h : ordInv o) (ha : o2.amount = o.amount)
    (hf : o2.filled = o.filled)
    (hp : o2.status = .PENDING → o2.filled = 0)
    (hpart : o2.status = .PARTIAL → 0 < o2.filled ∧ o2.filled < o2.amount) : ordInv o2 := by
  obtain ⟨h1, h2, h3, h4⟩ := h
  refine ⟨?_, ?_, hp, hpart⟩
  · rw [ha]
    exact h1
  · rw [hf]
    exact h2

theorem recordFill_ordInv {o : Order} (amt : ℚ) (pr : Option ℚ) (cp : Option String) (ts : ℕ)
    (h : ordInv o) : ordInv (Order.recordFill o amt pr cp ts).2 := by
  unfold Order.recordFill
  by_cases hamt : amt ≤ 0
  · simpa [hamt] using h
  · obtain ⟨h1, h2, h3, h4⟩ := h
    have hamt2 : 0 < amt := lt_of_not_le hamt
    simp only [if_neg hamt]
    split
    · refine ⟨h1, ?_, ?_, ?_⟩
      · show (0:ℚ) ≤ o.filled + amt
        linarith
      · intro hst
        exact absurd hst (by simp)
      · intro hst
        exact absurd hst (by simp)
    · rename_i hrem
      refine ⟨h1, ?_, ?_, ?_⟩
      · show (0:ℚ) ≤ o.filled + amt
        linarith
      · intro hst
        exact absurd hst (by simp)
      · intro hst
        have hmax : (0:ℚ) < max (o.amount - (o.filled + amt)) 0 := lt_of_not_le hrem
        have hlt : 0 < o.amount - (o.filled + amt) := by
          rcases lt_max_iff.1 hmax with hh | hh
          · exact hh
          · exact absurd hh (by norm_num)
        show 0 < o.filled + amt ∧ o.filled + amt < o.amount
        constructor
        · linarith
        · linarith

theorem ordInv_claimInv (o : Order) (h : ordInv o) : claimInv o := by
  obtain ⟨h1, h2, h3, h4⟩ := h
  intro hst
  rcases hst with hp | hp
  · have hf := h3 hp
    refine ⟨⟨h2, by rw [hf]; linarith⟩, ⟨fun _ => hp, fun _ => hf⟩, ?_, ?_⟩
    · constructor
      · intro hh
        rw [hf] at hh
        exact absurd hh.1 (by norm_num)
      · intro hh
        rw [hp] at hh
        exact absurd hh (by simp)
    · intro hh
      rw [hf] at hh
      exact absurd hh.symm (by linarith)
  · obtain ⟨hf1, hf2⟩ := h4 hp
    refine ⟨⟨h2, le_of_lt hf2⟩, ?_, ⟨fun _ => hp, fun _ => ⟨hf1, hf2⟩⟩, ?_⟩
    · constructor
      · intro hh
        rw [hh] at hf1
        exact absurd hf1 (by norm_num)
      · intro hh
        rw [hp] at hh
        exact absurd hh (by simp)
    · intro hh
      rw [hh] at hf2
      exact absurd hf2 (by linarith)


theorem stateInv_reg_eq {s1 s2 : EngineState} (h : s1.reg = s2.reg) (hs : stateInv s2) :
    stateInv s1 := by
  intro p hp
  rw [h] at hp
  exact hs p hp

theorem setList_reg (s : EngineState) (k : String) (sel : BookList) (l : List String) :
    (setList s k sel l).reg = s.reg := by
  unfold setList
  split <;> rfl

theorem getOrCreateOrderBook_reg (s : EngineState) (k : String) :
    (getOrCreateOrderBook s k).reg = s.reg := by
  unfold getOrCreateOrderBook
  split <;> rfl

theorem recordTrade_reg (s : EngineState) (k : String) (t : Trade) :
    (recordTrade s k t).reg = s.reg := by
  simp only [recordTrade]
  split <;> exact getOrCreateOrderBook_reg s k

theorem cleanupOrderFromBooks_reg (s : EngineState) (id : String) :
    (cleanupOrderFromBooks s id).reg = s.reg := by
  simp only [cleanupOrderFromBooks]
  repeat' split
  all_goals rfl

theorem prep_ordInv {o : Order} (ctx : TriggerCtx) (now : ℕ) (h : ordInv o) :
    ordInv (prepareTriggeredStopMetadata o ctx now) := by
  refine ordInv_mk h rfl rfl ?_ ?_ <;> intro hst <;>
    simp [prepareTriggeredStopMetadata, Order.markTriggered] at hst

theorem restOnBook_inv (s : EngineState) (key : String) (sel : BookList) (side : Side)
    (id : String) (hs : stateInv s) : stateInv (restOnBook s key sel side id) := by
  unfold restOnBook
  apply stateInv_reg_eq (setList_reg _ _ _ _)
  split
  · rename_i o ho
    split
    · rename_i hf
      have hs1 := stateInv_reg_eq (setList_reg s key sel
        (if id ∈ getList s key sel then getList s key sel else getList s key sel ++ [id])) hs
      obtain ⟨hid, hoi⟩ := stateInv_getOrd hs1 ho
      apply stateInv_putOrd hs1
      exact ordInv_mk hoi rfl rfl (fun _ => hf) (fun hp => absurd hp (by simp))
    · exact stateInv_reg_eq (setList_reg _ _ _ _) hs
  · exact stateInv_reg_eq (setList_reg _ _ _ _) hs

theorem restMarketOrder_inv (s : EngineState) (key id : String) (hs : stateInv s)
    (hrem : ∀ o, getOrd s id = some o → 0 < o.remaining) :
    stateInv (restMarketOrder s key id) := by
  unfold restMarketOrder
  split
  · exact hs
  · rename_i o ho
    apply stateInv_putOrd (stateInv_reg_eq (setList_reg _ _ _ _) hs)
    obtain ⟨hid, hoi⟩ := stateInv_getOrd hs ho
    have hr := hrem o ho
    have hmax : (0:ℚ) < max (o.amount - o.filled) 0 := hr
    have hlt : o.filled < o.amount := by
      rcases lt_max_iff.1 hmax with hh | hh
      · linarith
      · exact absurd hh (by norm_num)
    refine ordInv_mk hoi rfl rfl ?_ ?_
    · intro hst
      by_cases hf : 0 < o.filled
      · simp [hf] at hst
      · exact le_antisymm (not_lt.1 hf) hoi.2.1
    · intro hst
      by_cases hf : 0 < o.filled
      · exact ⟨hf, hlt⟩
      · simp [hf] at hst


theorem getD_ordInv {s : EngineState} {id : String} {o : Order} (hs : stateInv s)
    (ho : ordInv o) : ordInv ((getOrd s id).getD o) := by
  rcases h : getOrd s id with _ | o2
  · simpa using ho
  · simpa using (stateInv_getOrd hs h).2

theorem getD_id {s : EngineState} {id : String} {o : Order} (hs : stateInv s)
    (h : o.id = id) : ((getOrd s id).getD o).id = id := by
  rcases hg : getOrd s id with _ | o2
  · simpa using h
  · simpa using (stateInv_getOrd hs hg).1

theorem getOrd_putOrd_self {s : EngineState} {o : Order} {id : String} (h : o.id = id) :
    getOrd (putOrd s o) id = some o := by
  unfold getOrd putOrd
  rw [← h]
  exact aget_aset_self _ _ _

theorem remaining_pos_lt {o : Order} (h : 0 < o.remaining) : o.filled < o.amount := by
  have hmax : (0:ℚ) < max (o.amount - o.filled) 0 := h
  rcases lt_max_iff.1 hmax with hh | hh
  · linarith
  · exact absurd hh (by norm_num)

theorem ordInv_ioc {o : Order} (md : Metadata) (ho : ordInv o) (hrem : 0 < o.remaining) :
    ordInv { o with status := if 0 < o.filled then Status.PARTIAL else Status.REJECTED, metadata := md } := by
  have hlt : o.filled < o.amount := remaining_pos_lt hrem
  refine ordInv_mk ho rfl rfl ?_ ?_
  · intro hst
    by_cases hf : 0 < o.filled <;> simp [hf] at hst
  · intro hst
    by_cases hf : 0 < o.filled
    · exact ⟨hf, hlt⟩
    · simp [hf] at hst

theorem ordInv_pr {o : Order} (ho : ordInv o) (hrem : 0 < o.remaining) :
    ordInv { o with status := if 0 < o.filled then Status.PARTIAL else Status.REJECTED } := by
  have hlt : o.filled < o.amount := remaining_pos_lt hrem
  refine ordInv_mk ho rfl rfl ?_ ?_
  · intro hst
    by_cases hf : 0 < o.filled <;> simp [hf] at hst
  · intro hst
    by_cases hf : 0 < o.filled
    · exact ⟨hf, hlt⟩
    · simp [hf] at hst

theorem foldl_inv {α : Type} (f : EngineState → α → EngineState)
    (hf : ∀ s x, stateInv s → stateInv (f s x)) :
    ∀ (l : List α) (s), stateInv s → stateInv (l.foldl f s)
  | [], _, h => h
  | x :: rest, s, h => foldl_inv f hf rest (f s x) (hf s x h)

theorem foldl_inv_pair {α β : Type} (f : (EngineState × β) → α → (EngineState × β))
    (hf : ∀ sm x, stateInv sm.1 → stateInv (f sm x).1) :
    ∀ (l : List α) (sm), stateInv sm.1 → stateInv (l.foldl f sm).1
  | [], _, h => h
  | x :: rest, sm, h => foldl_inv_pair f hf rest (f sm x) (hf sm x h)

set_option maxHeartbeats 16000000 in
theorem run_stateInv (fuel : ℕ) : ∀ (s : EngineState) (c : Call),
    stateInv s → callOK s c → stateInv (run fuel s c).1 := by
  induction fuel with
  | zero => exact fun s c hs _ => hs
  | succ n ih =>
    intro s c hs hc
    cases c with
    | updInternal key price md =>
      simp only [run]
      repeat' split
      all_goals first
        | exact hs
        | exact stateInv_reg_eq rfl hs
        | exact ih _ _ (stateInv_reg_eq rfl hs) (by trivial)
        | exact ih _ _ (stateInv_reg_eq rfl (ih _ _ (stateInv_reg_eq rfl hs) (by trivial))) (by trivial)
    | trigger key price previousPrice =>
      simp only [run]
      repeat' split
      all_goals first
        | exact hs
        | exact stateInv_reg_eq rfl hs
        | exact ih _ _ (stateInv_reg_eq rfl hs) (by trivial)
    | processStops entries key ctx =>
      simp only [run]
      split
      · exact hs
      · apply foldl_inv
        · intro s2 e hs2
          repeat' split
          all_goals first
            | exact hs2
            | (rename_i o4 heq4
               exact stateInv_putOrd hs2 (stateInv_getOrd hs2 heq4).2)
        · split
          · apply foldl_inv_pair
            · intro sm2 e hsm2
              repeat' split
              all_goals first
                | exact hsm2
                | exact ih _ _ hsm2 (by trivial)
            · apply foldl_inv
              · intro s2 e hs2
                repeat' split
                all_goals first
                  | exact hs2
                  | (rename_i o4 heq4 hb4
                     apply stateInv_putOrd hs2
                     refine ordInv_mk (stateInv_getOrd hs2 heq4).2 rfl rfl ?_ ?_ <;> intro hst <;>
                       simp [prepareTriggeredStopMetadata, Order.markTriggered] at hst)
                  | (rename_i o4 heq4
                     apply stateInv_putOrd hs2
                     refine ordInv_mk (stateInv_getOrd hs2 heq4).2 rfl rfl ?_ ?_ <;> intro hst <;>
                       simp [prepareTriggeredStopMetadata, Order.markTriggered] at hst)
              · exact hs
          · apply foldl_inv_pair
            · intro sm2 e hsm2
              repeat' split
              all_goals first
                | exact hsm2
                | exact ih _ _ hsm2 (by trivial)
            · refine ih _ _ ?_ (by trivial)
              apply foldl_inv_pair
              · intro sm2 e hsm2
                repeat' split
                all_goals first
                  | exact hsm2
                  | exact ih _ _ hsm2 (by trivial)
              · apply foldl_inv
                · intro s2 e hs2
                  repeat' split
                  all_goals first
                    | exact hs2
                    | (rename_i o4 heq4 hb4
                       apply stateInv_putOrd hs2
                       refine ordInv_mk (stateInv_getOrd hs2 heq4).2 rfl rfl ?_ ?_ <;> intro hst <;>
                         simp [prepareTriggeredStopMetadata, Order.markTriggered] at hst)
                    | (rename_i o4 heq4
                       apply stateInv_putOrd hs2
                       refine ordInv_mk (stateInv_getOrd hs2 heq4).2 rfl rfl ?_ ?_ <;> intro hst <;>
                         simp [prepareTriggeredStopMetadata, Order.markTriggered] at hst)
                · exact hs
    | stopCross buyQ sellQ key ctx =>
      rcases buyQ with _ | ⟨b, bs⟩
      · simp only [run]
        exact hs
      · rcases sellQ with _ | ⟨c, cs⟩
        · simp only [run]
          exact hs
        · rcases hb : getOrd s b with _ | bo <;> rcases hcc : getOrd s c with _ | so <;>
            simp only [run, hb, hcc]
          · exact hs
          · exact hs
          · exact hs
          · repeat' split
            all_goals first
              | exact hs
              | exact ih _ _ hs (by trivial)
              | exact ih _ _ (stateInv_reg_eq rfl (ih _ _ (stateInv_reg_eq (recordTrade_reg _ _ _)
                  (stateInv_putOrd (stateInv_putOrd hs
                      (recordFill_ordInv _ _ _ _ (stateInv_getOrd hs hb).2))
                    (recordFill_ordInv _ _ _ _ (stateInv_getOrd hs hcc).2))) (by trivial))) (by trivial)
    | handleLimit orderId key =>
      simp only [run]
      rcases ho : getOrd s orderId with _ | order <;> simp only [ho]
      · exact hs
      · have hoi := (stateInv_getOrd hs ho).2
        cases hbuy : order.isBuy <;>
          simp only [hbuy, Bool.false_eq_true, if_false, ite_false, if_true, ite_true]
        · generalize hg1 : (if getList s key BookList.marketBuy ≠ [] then run n s (Call.matchLoop orderId BookList.marketBuy key Pred.always) else (s, ({} : RunRes))) = sr1
          have hs1 : stateInv sr1.1 := by
            rw [← hg1]
            split
            · exact ih _ _ hs (by trivial)
            · exact hs
          have ho1 : ordInv ((getOrd sr1.1 orderId).getD order) := getD_ordInv hs1 hoi
          split
          · exact stateInv_putOrd hs1 (ordInv_mk ho1 rfl rfl (fun h => absurd h (by simp))
              (fun h => absurd h (by simp)))
          · split
            · exact stateInv_putOrd hs1 (ordInv_mk ho1 rfl rfl (fun h => absurd h (by simp))
                (fun h => absurd h (by simp)))
            · generalize hg2 : run n sr1.1 (Call.matchLoop orderId BookList.buy key (Pred.sellAbove order.price)) = sr2
              have hs2 : stateInv sr2.1 := by
                rw [← hg2]
                exact ih _ _ hs1 (by trivial)
              have ho2 : ordInv ((getOrd sr2.1 orderId).getD ((getOrd sr1.1 orderId).getD order)) :=
                getD_ordInv hs2 ho1
              split
              · rename_i hrem2
                split
                · exact stateInv_putOrd hs2 (ordInv_ioc _ ho2 hrem2)
                · split
                  · exact stateInv_putOrd hs2 (ordInv_ioc _ ho2 hrem2)
                  · exact restOnBook_inv _ _ _ _ _ hs2
              · exact stateInv_putOrd hs2 (ordInv_mk ho2 rfl rfl (fun h => absurd h (by simp))
                  (fun h => absurd h (by simp)))
        · generalize hg1 : (if getList s key BookList.marketSell ≠ [] then run n s (Call.matchLoop orderId BookList.marketSell key Pred.always) else (s, ({} : RunRes))) = sr1
          have hs1 : stateInv sr1.1 := by
            rw [← hg1]
            split
            · exact ih _ _ hs (by trivial)
            · exact hs
          have ho1 : ordInv ((getOrd sr1.1 orderId).getD order) := getD_ordInv hs1 hoi
          split
          · exact stateInv_putOrd hs1 (ordInv_mk ho1 rfl rfl (fun h => absurd h (by simp))
              (fun h => absurd h (by simp)))
          · split
            · exact stateInv_putOrd hs1 (ordInv_mk ho1 rfl rfl (fun h => absurd h (by simp))
                (fun h => absurd h (by simp)))
            · generalize hg2 : run n sr1.1 (Call.matchLoop orderId BookList.sell key (Pred.buyBelow order.price)) = sr2
              have hs2 : stateInv sr2.1 := by
                rw [← hg2]
                exact ih _ _ hs1 (by trivial)
              have ho2 : ordInv ((getOrd sr2.1 orderId).getD ((getOrd sr1.1 orderId).getD order)) :=
                getD_ordInv hs2 ho1
              split
              · rename_i hrem2
                split
                · exact stateInv_putOrd hs2 (ordInv_ioc _ ho2 hrem2)
                · split
                  · exact stateInv_putOrd hs2 (ordInv_ioc _ ho2 hrem2)
                  · exact restOnBook_inv _ _ _ _ _ hs2
              · exact stateInv_putOrd hs2 (ordInv_mk ho2 rfl rfl (fun h => absurd h (by simp))
                  (fun h => absurd h (by simp)))
    | handleMarket orderId key =>
      simp only [run]
      rcases ho : getOrd s orderId with _ | order <;> simp only [ho]
      · exact hs
      · have hoi := (stateInv_getOrd hs ho).2
        have hid := (stateInv_getOrd hs ho).1
        cases hbuy : order.isBuy <;>
          simp only [hbuy, Bool.false_eq_true, if_false, ite_false, if_true, ite_true]
        · generalize hg1 : (if getList s key BookList.marketBuy ≠ [] then run n s (Call.matchLoop orderId BookList.marketBuy key Pred.always) else (s, ({} : RunRes))) = sr1
          have hs1 : stateInv sr1.1 := by
            rw [← hg1]
            split
            · exact ih _ _ hs (by trivial)
            · exact hs
          have ho1 : ordInv ((getOrd sr1.1 orderId).getD order) := getD_ordInv hs1 hoi
          have hid1 : ((getOrd sr1.1 orderId).getD order).id = orderId := getD_id hs1 hid
          split
          · exact stateInv_putOrd hs1 (ordInv_mk ho1 rfl rfl (fun h => absurd h (by simp))
              (fun h => absurd h (by simp)))
          · generalize hg2 : (if 0 < ((getOrd sr1.1 orderId).getD order).remaining then run n sr1.1 (Call.matchLoop orderId BookList.buy key Pred.always) else (sr1.1, ({} : RunRes))) = sr2
            have hs2 : stateInv sr2.1 := by
              rw [← hg2]
              split
              · exact ih _ _ hs1 (by trivial)
              · exact hs1
            have ho2 : ordInv ((getOrd sr2.1 orderId).getD ((getOrd sr1.1 orderId).getD order)) :=
              getD_ordInv hs2 ho1
            have hid2 : ((getOrd sr2.1 orderId).getD ((getOrd sr1.1 orderId).getD order)).id = orderId :=
              getD_id hs2 hid1
            generalize hg3 : (if 0 < ((getOrd sr2.1 orderId).getD ((getOrd sr1.1 orderId).getD order)).remaining ∧ shouldUseSyntheticLiquidity sr2.1 ((getOrd sr2.1 orderId).getD ((getOrd sr1.1 orderId).getD order)) = true then run n sr2.1 (Call.fillSynthetic orderId key) else (sr2.1, ({} : RunRes))) = sr3
            have hs3 : stateInv sr3.1 := by
              rw [← hg3]
              split
              · exact ih _ _ hs2 (by trivial)
              · exact hs2
            have ho3 : ordInv ((getOrd sr3.1 orderId).getD ((getOrd sr2.1 orderId).getD ((getOrd sr1.1 orderId).getD order))) :=
              getD_ordInv hs3 ho2
            have hid3 : ((getOrd sr3.1 orderId).getD ((getOrd sr2.1 orderId).getD ((getOrd sr1.1 orderId).getD order))).id = orderId :=
              getD_id hs3 hid2
            split
            · rename_i hrem3
              split
              · exact stateInv_putOrd hs3 (ordInv_ioc _ ho3 hrem3)
              · split
                · exact stateInv_putOrd hs3 (ordInv_pr ho3 hrem3)
                · refine restMarketOrder_inv _ _ _ (stateInv_putOrd hs3 ho3) ?_
                  intro o2 hgo
                  simp only [getOrd, putOrd] at hgo hid3
                  rw [hid3] at hgo
                  rw [aget_aset_self] at hgo
                  injection hgo with he
                  rw [← he]
                  exact hrem3
            · exact stateInv_putOrd hs3 (ordInv_mk ho3 rfl rfl (fun h => absurd h (by simp))
                (fun h => absurd h (by simp)))
        · generalize hg1 : (if getList s key BookList.marketSell ≠ [] then run n s (Call.matchLoop orderId BookList.marketSell key Pred.always) else (s, ({} : RunRes))) = sr1
          have hs1 : stateInv sr1.1 := by
            rw [← hg1]
            split
            · exact ih _ _ hs (by trivial)
            · exact hs
          have ho1 : ordInv ((getOrd sr1.1 orderId).getD order) := getD_ordInv hs1 hoi
          have hid1 : ((getOrd sr1.1 orderId).getD order).id = orderId := getD_id hs1 hid
          split
          · exact stateInv_putOrd hs1 (ordInv_mk ho1 rfl rfl (fun h => absurd h (by simp))
              (fun h => absurd h (by simp)))
          · generalize hg2 : (if 0 < ((getOrd sr1.1 orderId).getD order).remaining then run n sr1.1 (Call.matchLoop orderId BookList.sell key Pred.always) else (sr1.1, ({} : RunRes))) = sr2
            have hs2 : stateInv sr2.1 := by
              rw [← hg2]
              split
              · exact ih _ _ hs1 (by trivial)
              · exact hs1
            have ho2 : ordInv ((getOrd sr2.1 orderId).getD ((getOrd sr1.1 orderId).getD order)) :=
              getD_ordInv hs2 ho1
            have hid2 : ((getOrd sr2.1 orderId).getD ((getOrd sr1.1 orderId).getD order)).id = orderId :=
              getD_id hs2 hid1
            generalize hg3 : (if 0 < ((getOrd sr2.1 orderId).getD ((getOrd sr1.1 orderId).getD order)).remaining ∧ shouldUseSyntheticLiquidity sr2.1 ((getOrd sr2.1 orderId).getD ((getOrd sr1.1 orderId).getD order)) = true then run n sr2.1 (Call.fillSynthetic orderId key) else (sr2.1, ({} : RunRes))) = sr3
            have hs3 : stateInv sr3.1 := by
              rw [← hg3]
              split
              · exact ih _ _ hs2 (by trivial)
              · exact hs2
            have ho3 : ordInv ((getOrd sr3.1 orderId).getD ((getOrd sr2.1 orderId).getD ((getOrd sr1.1 orderId).getD order))) :=
              getD_ordInv hs3 ho2
            have hid3 : ((getOrd sr3.1 orderId).getD ((getOrd sr2.1 orderId).getD ((getOrd sr1.1 orderId).getD order))).id = orderId :=
              getD_id hs3 hid2
            split
            · rename_i hrem3
              split
              · exact stateInv_putOrd hs3 (ordInv_ioc _ ho3 hrem3)
              · split
                · exact stateInv_putOrd hs3 (ordInv_pr ho3 hrem3)
                · refine restMarketOrder_inv _ _ _ (stateInv_putOrd hs3 ho3) ?_
                  intro o2 hgo
                  simp only [getOrd, putOrd] at hgo hid3
                  rw [hid3] at hgo
                  rw [aget_aset_self] at hgo
                  injection hgo with he
                  rw [← he]
                  exact hrem3
            · exact stateInv_putOrd hs3 (ordInv_mk ho3 rfl rfl (fun h => absurd h (by simp))
                (fun h => absurd h (by simp)))

    | queueStop orderId sel key =>
      simp only [run]
      rcases ho : getOrd s orderId with _ | order
      · simp only [ho]
        exact hs
      · simp only [ho]
        have hfill : order.filled = 0 := hc order ho
        have hoi := (stateInv_getOrd hs ho).2
        have hrej : stateInv (putOrd s { order with status := .REJECTED, metadata := { order.metadata with rejectReason := some "INVALID_STOP_PRICE" } }) :=
          stateInv_putOrd hs (ordInv_mk hoi rfl rfl (fun h => absurd h (by simp))
            (fun h => absurd h (by simp)))
        have hpend : stateInv (putOrd s { order with status := .PENDING, metadata := { order.metadata with queuedAt := some s.clock } }) :=
          stateInv_putOrd hs (ordInv_mk hoi rfl rfl (fun _ => hfill)
            (fun h => absurd h (by simp)))
        repeat' split
        all_goals first
          | exact hs
          | exact hrej
          | exact stateInv_reg_eq (setList_reg _ _ _ _) hpend
          | exact ih _ _ (stateInv_reg_eq (setList_reg _ _ _ _) hpend) (by trivial)
          | exact stateInv_reg_eq rfl (ih _ _ (stateInv_reg_eq (setList_reg _ _ _ _) hpend) (by trivial))
          | exact stateInv_reg_eq (setList_reg _ _ _ _)
              (ih _ _ (stateInv_reg_eq (setList_reg _ _ _ _) hpend) (by trivial))
          | exact ih _ _ (stateInv_reg_eq (setList_reg _ _ _ _)
              (ih _ _ (stateInv_reg_eq (setList_reg _ _ _ _) hpend) (by trivial))) (by trivial)
          | exact ih _ _ (stateInv_reg_eq (setList_reg _ _ _ _)
              (stateInv_reg_eq (setList_reg _ _ _ _) hpend)) (by trivial)
          | exact stateInv_reg_eq (setList_reg _ _ _ _)
              (stateInv_reg_eq (setList_reg _ _ _ _) hpend)
    | matchLoop takerId sel key p =>
      simp only [run]
      rcases htk : getOrd s takerId with _ | taker <;> simp only [htk]
      · exact hs
      · split
        · exact hs
        · rcases hl : getList s key sel with _ | ⟨makerId, restIds⟩ <;> simp only [hl]
          · exact hs
          · rcases hmk : getOrd s makerId with _ | maker <;> simp only [hmk]
            · exact hs
            · split
              · exact hs
              · split
                · exact hs
                · repeat' split
                  all_goals first
                    | exact ih _ _ (stateInv_reg_eq (setList_reg _ _ _ _) (stateInv_reg_eq rfl
                        (ih _ _ (ih _ _ (ih _ _ (stateInv_reg_eq (recordTrade_reg _ _ _)
                          (stateInv_putOrd (stateInv_putOrd hs
                              (recordFill_ordInv _ _ _ _ (stateInv_getOrd hs hmk).2))
                            (recordFill_ordInv _ _ _ _ (stateInv_getOrd hs htk).2)))
                          (by trivial)) (by trivial)) (by trivial)))) (by trivial)
                    | exact ih _ _ (stateInv_reg_eq rfl
                        (ih _ _ (ih _ _ (ih _ _ (stateInv_reg_eq (recordTrade_reg _ _ _)
                          (stateInv_putOrd (stateInv_putOrd hs
                              (recordFill_ordInv _ _ _ _ (stateInv_getOrd hs hmk).2))
                            (recordFill_ordInv _ _ _ _ (stateInv_getOrd hs htk).2)))
                          (by trivial)) (by trivial)) (by trivial))) (by trivial)
    | fillSynthetic orderId key =>
      simp only [run]
      rcases ho : getOrd s orderId with _ | order
      · simp only [ho]
        exact hs
      · simp only [ho]
        repeat' split
        all_goals first
          | exact hs
          | exact stateInv_reg_eq rfl
              (ih _ _ (ih _ _ (stateInv_reg_eq (recordTrade_reg _ _ _)
                (stateInv_putOrd (stateInv_reg_eq rfl hs)
                  (recordFill_ordInv _ _ _ _ (stateInv_getOrd hs ho).2))) (by trivial)) (by trivial))
    | impact orderId key referencePrice baseFilled =>
      simp only [run]
      repeat' split
      all_goals first
        | exact hs
        | exact stateInv_reg_eq rfl hs
        | exact stateInv_reg_eq rfl (ih _ _ hs (by trivial))
    | addOrder orderId =>
      simp only [run]
      rcases ho : getOrd s orderId with _ | order <;> simp only [ho]
      · exact hs
      · split
        · exact hs
        · have hs1 : stateInv (getOrCreateOrderBook s (getPairKey order.baseToken order.quoteToken)) :=
            stateInv_reg_eq (getOrCreateOrderBook_reg _ _) hs
          rcases htype : order.orderType <;> simp only [htype]
          · have hsr := ih _ (Call.handleLimit orderId (getPairKey order.baseToken order.quoteToken)) hs1 (by trivial)
            repeat' split
            all_goals first
              | exact hsr
              | (rename_i o4 heq4
                 exact stateInv_putOrd hsr (stateInv_getOrd hsr heq4).2)
          · have hsr := ih _ (Call.handleMarket orderId (getPairKey order.baseToken order.quoteToken)) hs1 (by trivial)
            repeat' split
            all_goals first
              | exact hsr
              | (rename_i o4 heq4
                 exact stateInv_putOrd hsr (stateInv_getOrd hsr heq4).2)
          · have hck : ∀ o2, getOrd (getOrCreateOrderBook s (getPairKey order.baseToken order.quoteToken)) orderId = some o2 → o2.filled = 0 := by
              intro o2 hgo
              have hgo2 : getOrd s orderId = some o2 := by
                unfold getOrd at hgo ⊢
                rwa [getOrCreateOrderBook_reg] at hgo
              rw [ho] at hgo2
              injection hgo2 with he
              rw [← he]
              exact hc order ho (Or.inl htype)
            have hsr := ih _ (Call.queueStop orderId BookList.stopLoss (getPairKey order.baseToken order.quoteToken)) hs1 hck
            repeat' split
            all_goals first
              | exact hsr
              | (rename_i o4 heq4
                 exact stateInv_putOrd hsr (stateInv_getOrd hsr heq4).2)
          · have hck : ∀ o2, getOrd (getOrCreateOrderBook s (getPairKey order.baseToken order.quoteToken)) orderId = some o2 → o2.filled = 0 := by
              intro o2 hgo
              have hgo2 : getOrd s orderId = some o2 := by
                unfold getOrd at hgo ⊢
                rwa [getOrCreateOrderBook_reg] at hgo
              rw [ho] at hgo2
              injection hgo2 with he
              rw [← he]
              exact hc order ho (Or.inr htype)
            have hsr := ih _ (Call.queueStop orderId BookList.stopLimit (getPairKey order.baseToken order.quoteToken)) hs1 hck
            repeat' split
            all_goals first
              | exact hsr
              | (rename_i o4 heq4
                 exact stateInv_putOrd hsr (stateInv_getOrd hsr heq4).2)


theorem cancelOrder_reg (s : EngineState) (id : String) :
    (cancelOrder s id).1.reg = s.reg := by
  simp only [cancelOrder]
  repeat' split
  all_goals rfl

theorem serviceCancelOrder_inv (s : EngineState) (id reason : String) (hs : stateInv s) :
    stateInv (serviceCancelOrder s id reason) := by
  simp only [serviceCancelOrder]
  repeat' split
  all_goals first
    | exact hs
    | exact stateInv_reg_eq (cancelOrder_reg _ _) hs
    | (rename_i o4 heq4
       exact stateInv_putOrd (stateInv_reg_eq (cancelOrder_reg _ _) hs)
         (ordInv_mk (stateInv_getOrd (stateInv_reg_eq (cancelOrder_reg _ _) hs) heq4).2 rfl rfl
           (fun h => absurd h (by simp [Order.cancelMark]))
           (fun h => absurd h (by simp [Order.cancelMark]))))

theorem batchExecLoop_inv (fuel : ℕ) (batchId : String) (ts : ℕ) (tol : ℚ) :
    ∀ (legs : List (BatchEntry × (ℚ × ℚ) × String × ℕ)) (s : EngineState), stateInv s →
      stateInv (batchExecLoop fuel batchId ts tol s legs).1 := by
  intro legs
  induction legs with
  | nil => exact fun s hs => hs
  | cons leg rest ihl =>
    intro s hs
    obtain ⟨entry, amounts, nextId, index⟩ := leg
    rw [batchExecLoop]
    rcases ho : getOrd s entry.orderId with _ | order <;> simp only [ho]
    · exact hs
    · repeat' split
      all_goals first
        | exact hs
        | exact ihl _ (stateInv_reg_eq (cleanupOrderFromBooks_reg _ _) (stateInv_reg_eq rfl
            (run_stateInv fuel _ _ (stateInv_reg_eq (recordTrade_reg _ _ _)
              (stateInv_putOrd hs (recordFill_ordInv _ _ _ _ (stateInv_getOrd hs ho).2)))
              (by trivial))))
        | exact ihl _ (stateInv_reg_eq rfl
            (run_stateInv fuel _ _ (stateInv_reg_eq (recordTrade_reg _ _ _)
              (stateInv_putOrd hs (recordFill_ordInv _ _ _ _ (stateInv_getOrd hs ho).2)))
              (by trivial)))

theorem executeBatchTrades_inv (fuel : ℕ) (s : EngineState) (ids : List String)
    (tol : Option ℚ) (hs : stateInv s) :
    stateInv (executeBatchTrades fuel s ids tol).1 := by
  simp only [executeBatchTrades]
  repeat' split
  all_goals first
    | exact hs
    | exact batchExecLoop_inv fuel _ _ _ _ _ (stateInv_reg_eq rfl hs)

/-! ## Claim theorems (amended statements) -/

/-- Claim C8 (amended): for every pair, the order service serializes the
engine's book snapshot into an object with exactly the five collections
`buy`, `sell`, `stopLoss`, `stopLimit` and `trades`, each carrying the
corresponding book list; the `marketBuy`/`marketSell` queues of the book do
not appear. -/
theorem c8_amended (s : EngineState) (baseToken quoteToken : String) :
    serviceGetOrderBook s baseToken quoteToken =
      [("buy", SerValue.orders (engineGetOrderBook s baseToken quoteToken).buy),
       ("sell", SerValue.orders (engineGetOrderBook s baseToken quoteToken).sell),
       ("stopLoss", SerValue.orders (engineGetOrderBook s baseToken quoteToken).stopLoss),
       ("stopLimit", SerValue.orders (engineGetOrderBook s baseToken quoteToken).stopLimit),
       ("trades", SerValue.tradeList (engineGetOrderBook s baseToken quoteToken).trades)] := rfl

/-- Claim C4 (amended): a market-price update carrying
`skipStopTrigger = true` (as the in-batch cross-match fills and synthetic
fills pass it) performs no stop scanning at all: it leaves every order book
and the whole order registry unchanged, for every fuel, state, key and
price. -/
theorem c4_amended (fuel : ℕ) (s : EngineState) (key : String) (price : ℚ)
    (md : UpdMeta) (h : md.skipStopTrigger = true) :
    (updateMarketPriceInternal fuel s key price md).orderBooks = s.orderBooks ∧
    (updateMarketPriceInternal fuel s key price md).reg = s.reg := by
  cases fuel with
  | zero => exact ⟨rfl, rfl⟩
  | succ n =>
    unfold updateMarketPriceInternal
    simp only [run]
    by_cases hp : price ≤ 0
    · rw [if_pos hp]
      exact ⟨rfl, rfl⟩
    · rw [if_neg hp]
      simp only [h, if_true]
      split <;> exact ⟨rfl, rfl⟩

/-- Witness for `c4_amended` at a concrete skip-guarded update. -/
theorem c4_amended_witness :
    ({ source := some "stop-trigger", skipStopTrigger := true : UpdMeta }.skipStopTrigger = true) ∧
    ((updateMarketPriceInternal 5 c4State1 "toka-tokb" 7
        { source := some "stop-trigger", skipStopTrigger := true }).orderBooks =
      c4State1.orderBooks) := by
  refine ⟨rfl, ?_⟩
  exact (c4_amended 5 c4State1 "toka-tokb" 7
    { source := some "stop-trigger", skipStopTrigger := true } rfl).1

/-- Claim C10 (amended): `recordFill` returns null and leaves the order
unchanged exactly when the amount is NaN or `<= 0`; for any other amount
(every positive number, `Infinity` included) it appends one execution,
increases `filled` by exactly the amount and stamps `updatedAt`. -/
theorem c10_amended (o : JsOrder) (amount : JNum) (price : Option JNum)
    (cp : Option String) (ts : ℕ) :
    ((amount.isNaN || amount.jle .zero) = true →
      o.recordFill amount price cp ts = (none, o)) ∧
    ((amount.isNaN || amount.jle .zero) = false →
      (o.recordFill amount price cp ts).1 =
        some { amount := amount, price := price, counterparty := cp, timestamp := ts } ∧
      (o.recordFill amount price cp ts).2.filled = o.filled.add amount ∧
      (o.recordFill amount price cp ts).2.executions =
        o.executions ++ [{ amount := amount, price := price, counterparty := cp, timestamp := ts }] ∧
      (o.recordFill amount price cp ts).2.updatedAt = ts) := by
  constructor
  · intro h
    simp [JsOrder.recordFill, h]
  · intro h
    simp only [JsOrder.recordFill, h, Bool.false_eq_true, if_false]
    refine ⟨?_, ?_, ?_, ?_⟩ <;> first
      | trivial
      | rfl
      | (split <;> rfl)

/-- Claim C1 (amended): the service cancel removes the order's id from the
`buy`, `sell`, `stopLoss` and `stopLimit` lists of its pair's book and marks
the record CANCELLED with `metadata.cancelReason` set, but it does not touch
the `marketBuy`/`marketSell` queues, which are returned unchanged. -/
theorem c1_amended (s : EngineState) (id reason : String) (order : Order) (book : Book)
    (h1 : getOrd s id = some order) (hid : order.id = id)
    (h2 : ¬ order.status ∈ [Status.CANCELLED, Status.FILLED, Status.REJECTED, Status.EXPIRED])
    (h3 : aget s.orderBooks (getPairKey order.baseToken order.quoteToken) = some book)
    (hb : book.buy.count id ≤ 1) (hs : book.sell.count id ≤ 1)
    (hsl : book.stopLoss.count id ≤ 1) (hstl : book.stopLimit.count id ≤ 1) :
    ∃ book2,
      aget (serviceCancelOrder s id reason).orderBooks
          (getPairKey order.baseToken order.quoteToken) = some book2 ∧
      id ∉ book2.buy ∧ id ∉ book2.sell ∧ id ∉ book2.stopLoss ∧ id ∉ book2.stopLimit ∧
      book2.marketBuy = book.marketBuy ∧ book2.marketSell = book.marketSell ∧
      (getOrd (serviceCancelOrder s id reason) id).map Order.status = some .CANCELLED ∧
      ((getOrd (serviceCancelOrder s id reason) id).bind fun o => o.metadata.cancelReason) =
        some reason := by
  have h1' : aget s.reg id = some order := h1
  simp only [serviceCancelOrder, cancelOrder, getOrd, putOrd, h1, h1', h3, if_neg h2,
    Order.cancelMark]
  rw [hid]
  refine ⟨_, aget_aset_self _ _ _, removeOrderFromList_not_mem _ _ hb,
    removeOrderFromList_not_mem _ _ hs, removeOrderFromList_not_mem _ _ hsl,
    removeOrderFromList_not_mem _ _ hstl, rfl, rfl, ?_, ?_⟩
  · rw [aget_aset_self]
    rfl
  · rw [aget_aset_self]
    rfl

/-- Witness for `c1_amended` at the resting market order of `c1State1`. -/
theorem c1_amended_witness :
    ∃ book2,
      aget (serviceCancelOrder c1State1 "M" "USER_CANCELLED").orderBooks
          (getPairKey c1RegOrder.baseToken c1RegOrder.quoteToken) = some book2 ∧
      "M" ∉ book2.buy ∧ "M" ∉ book2.sell ∧ "M" ∉ book2.stopLoss ∧ "M" ∉ book2.stopLimit ∧
      book2.marketBuy = c1RegBook.marketBuy ∧ book2.marketSell = c1RegBook.marketSell ∧
      (getOrd (serviceCancelOrder c1State1 "M" "USER_CANCELLED") "M").map Order.status =
        some .CANCELLED ∧
      ((getOrd (serviceCancelOrder c1State1 "M" "USER_CANCELLED") "M").bind
          fun o => o.metadata.cancelReason) = some "USER_CANCELLED" :=
  c1_amended c1State1 "M" "USER_CANCELLED" c1RegOrder c1RegBook (by decide) (by decide)
    (by decide) (by decide) (by decide) (by decide) (by decide) (by decide)

/-- Claim C2 (amended): every batch error other than the in-loop ones —
"Order not found", the overfill error and the all-or-nothing error — is
raised by the pre-execution validations and leaves the engine state (hence
every order) exactly unchanged.  The in-loop errors can leave earlier legs
filled — the counterexample exhibits the retained fill. -/
theorem c2_amended (fuel : ℕ) (s : EngineState) (ids : List String) (tol : Option ℚ) (e : String)
    (h : (executeBatchTrades fuel s ids tol).2 = .error e)
    (hmem : e ∉ ["Order not found", "Batch execution overfills an order",
      "Batch execution would only partially fill an all-or-nothing order"]) :
    (executeBatchTrades fuel s ids tol).1 = s := by
  rcases hE : executeBatchTrades fuel s ids tol with ⟨s2, res⟩
  rw [hE] at h
  simp only at h
  unfold executeBatchTrades at hE
  repeat' (first | split at hE | simp only at hE)
  all_goals
    first
      | (injection hE with h1 h2
         exact h1.symm ▸ rfl)
      | (injection hE with h1 h2
         rw [← h2] at h
         simp at h
         done)
      | (injection hE with h1 h2
         rw [← h2] at h
         injection h with h4
         subst h4
         exact absurd (batchExecLoop_err _ _ _ _ _ _ _ (by assumption)) hmem)

/-- Witness for `c2_amended`: a pre-execution batch error (fewer than two
orders) leaves the state untouched. -/
theorem c2_amended_witness :
    (executeBatchTrades 20 c2State ["X"] none).1 = c2State :=
  c2_amended 20 c2State ["X"] none "Batch execution requires at least two orders"
    (by decide) (by decide)

/-- Claim C5 (amended): `addOrder` rejects a stop order (REJECTED, reason
INVALID_STOP_PRICE, not queued) exactly when its `stopPrice` is null; any
numeric stop price — zero and negative values included — is accepted: the
record is set PENDING and appended to the `stopLoss` queue.  The
market-price and oracle-snapshot hypotheses pin the pair to one with no
price history, so no immediate trigger path runs. -/
theorem c5_amended (fuel : ℕ) (s : EngineState) (id : String) (order : Order)
    (h1 : getOrd s id = some order) (hid : order.id = id)
    (htype : order.orderType = .STOP_LOSS)
    (hbase : ¬ order.baseToken = "") (hquote : ¬ order.quoteToken = "")
    (hmp : aget s.marketPrices (getPairKey order.baseToken order.quoteToken) = none)
    (hora : getCachedPairSnapshot s.oracle order.baseToken order.quoteToken = none) :
    (order.stopPrice = none →
      (getOrd (addOrder (fuel+2) s id) id).map Order.status = some .REJECTED ∧
      ((getOrd (addOrder (fuel+2) s id) id).bind fun o => o.metadata.rejectReason) =
        some "INVALID_STOP_PRICE" ∧
      getList (addOrder (fuel+2) s id) (getPairKey order.baseToken order.quoteToken) .stopLoss =
        getList s (getPairKey order.baseToken order.quoteToken) .stopLoss) ∧
    (∀ q : ℚ, order.stopPrice = some q →
      (getOrd (addOrder (fuel+2) s id) id).map Order.status = some .PENDING ∧
      getList (addOrder (fuel+2) s id) (getPairKey order.baseToken order.quoteToken) .stopLoss =
        getList s (getPairKey order.baseToken order.quoteToken) .stopLoss ++ [id]) := by
  have h1' : aget s.reg id = some order := h1
  constructor
  · intro hnone
    rcases hob : aget s.orderBooks (getPairKey order.baseToken order.quoteToken) with _ | b <;>
      simp only [addOrder, run, getOrd, getList, getOrCreateOrderBook, getSnapshotFromKey,
        putOrd, setList, h1', hid, htype, hbase, hquote, hnone, hmp, hora, hob,
        false_or, or_self, if_false, ite_false, if_true, ite_true, List.isEmpty_nil,
        aget_aset_self, aget_aset_ne] <;>
      refine ⟨?_, ?_, ?_⟩ <;> first | trivial | rfl
  · intro q hq
    rcases hob : aget s.orderBooks (getPairKey order.baseToken order.quoteToken) with _ | b <;>
      simp only [addOrder, run, getOrd, getList, getOrCreateOrderBook, getSnapshotFromKey,
        putOrd, setList, h1', hid, htype, hbase, hquote, hq, hmp, hora, hob,
        false_or, or_self, if_false, ite_false, if_true, ite_true, List.isEmpty_nil,
        reduceCtorEq, Book.setList, Book.getList, List.append_nil, List.nil_append,
        aget_aset_self, aget_aset_ne] <;>
      refine ⟨?_, ?_⟩ <;> first | trivial | rfl

/-- Witness for `c5_amended`: the stop order with `stopPrice = 0` is
accepted, set PENDING and queued. -/
theorem c5_amended_witness :
    (getOrd (addOrder (18+2) (putOrd {} c5Stop) "S0") "S0").map Order.status =
      some .PENDING ∧
    getList (addOrder (18+2) (putOrd {} c5Stop) "S0")
        (getPairKey c5Stop.baseToken c5Stop.quoteToken) .stopLoss =
      getList (putOrd {} c5Stop) (getPairKey c5Stop.baseToken c5Stop.quoteToken) .stopLoss
        ++ ["S0"] :=
  (c5_amended 18 (putOrd {} c5Stop) "S0" c5Stop (by decide) (by decide) (by decide)
    (by decide) (by decide) (by decide) (by decide)).2 0 (by decide)

/-- Claim C6 (amended): for every token the oracle's unit value equals the
reference `clamp(m x base, 10^-12, 10^12)` with `base = 1/totalSupply` when
the supply is known and positive else `1`, and the code's multiplier
`m = (0.5 + f x 1.5) x (1 + (len(symbol) mod 5) x 0.05)` for a non-empty
symbol (factor `1` otherwise), where
`f = hi32(SHA-256(addr|SYMBOL|NAME)) / 0xffffffff ∈ [0,1]`. -/
theorem c6_amended (supply : Option ℚ) (address symbol name : List ℕ) :
    deriveUnitValue supply address symbol name = uvAmendedC6 supply address symbol name := by
  have hseed : (address ++ [0x7c] ++ upperBytes symbol ++ [0x7c] ++ upperBytes name) ≠ [] := by
    simp
  have hM : (0:ℚ) <
      (1 / 2 + (SHA256.sha256hi32 (address ++ [0x7c] ++ upperBytes symbol ++ [0x7c] ++ upperBytes name) : ℚ)
          / 0xffffffff * (3 / 2)) *
        (if ¬symbol = [] then 1 + ((symbol.length % 5 : ℕ) : ℚ) * (1 / 20) else 1) := by
    have h2 : (0:ℚ) < if ¬symbol = [] then 1 + ((symbol.length % 5 : ℕ) : ℚ) * (1 / 20) else 1 := by
      split
      · positivity
      · norm_num
    have h1 : (0:ℚ) < 1 / 2 +
        (SHA256.sha256hi32 (address ++ [0x7c] ++ upperBytes symbol ++ [0x7c] ++ upperBytes name) : ℚ)
          / 0xffffffff * (3 / 2) := by positivity
    exact mul_pos h1 h2
  cases supply with
  | none =>
    simp only [deriveUnitValue, uvAmendedC6, parseSupply, deterministicMultiplier,
      if_neg hseed, ne_eq, upperBytes_nil, upperBytes_len, mul_one, one_mul]
    rw [if_pos hM, clamp_if_eq]
  | some v =>
    by_cases hv : 0 < v
    · have hiv : (0:ℚ) < 1 / v := by positivity
      have hpos : (0:ℚ) < (1 / v) *
          ((1 / 2 + (SHA256.sha256hi32 (address ++ [0x7c] ++ upperBytes symbol ++ [0x7c] ++ upperBytes name) : ℚ)
              / 0xffffffff * (3 / 2)) *
            (if ¬symbol = [] then 1 + ((symbol.length % 5 : ℕ) : ℚ) * (1 / 20) else 1)) :=
        mul_pos hiv hM
      simp only [deriveUnitValue, uvAmendedC6, parseSupply, deterministicMultiplier,
        if_neg hseed, ne_eq, upperBytes_nil, upperBytes_len, hv, if_true, hiv]
      rw [if_pos hpos, clamp_if_eq, mul_comm]
    · simp only [deriveUnitValue, uvAmendedC6, parseSupply, deterministicMultiplier,
        if_neg hseed, ne_eq, upperBytes_nil, upperBytes_len, hv, if_false, mul_one, one_mul]
      rw [if_pos hM, clamp_if_eq]

/-- Claim C7 (amended): `updateMarketPrice(b,q,p)` writes exactly `1/p` at
the inverse key before stop processing; when no stop order of the pair or
its inverse can trigger — here, both stop lists empty — the engine reports
`getMarketPrice(q,b) = 1/p` exactly, immediately after the call.  (When a
resting stop does trigger inside the call, its routed fills can overwrite
the inverse price again — the counterexample.) -/
theorem c7_amended (fuel : ℕ) (s : EngineState) (b q : String) (p : ℚ) (hp : 0 < p)
    (hb : ¬ b = "") (hq : ¬ q = "")
    (hsd : splitDash (getPairKey b q) = [strLower b, strLower q])
    (hbl : ¬ strLower b = "") (hql : ¬ strLower q = "")
    (hik : getPairKey (strLower q) (strLower b) = getPairKey q b)
    (hne : ¬ getPairKey q b = getPairKey b q)
    (hsl1 : getList s (getPairKey b q) .stopLoss = [])
    (hsl2 : getList s (getPairKey b q) .stopLimit = [])
    (hsl3 : getList s (getPairKey q b) .stopLoss = [])
    (hsl4 : getList s (getPairKey q b) .stopLimit = []) :
    (updateMarketPrice (fuel+1) s b q p).toOption.map
      (fun s2 => getMarketPrice s2 q b) = some (some (1/p)) := by
  have hple : ¬ p ≤ 0 := not_le.2 hp
  simp only [updateMarketPrice, if_neg hple, Except.toOption, Option.map, getMarketPrice,
    updateMarketPriceInternal, run, hsd, hik, hb, hq, hbl, hql, hne, ne_eq,
    not_false_iff, and_self, true_and, and_true, if_true, ite_true, if_false, ite_false,
    or_self, false_or, or_false, Bool.false_eq_true, not_false_eq_true]
  rw [double_trigger_price]
  · simp only [setMarketPriceEntry]
    rw [aget_aset_self]
  · exact hsl3
  · exact hsl4
  · exact hsl1
  · exact hsl2

/-- Witness for `c7_amended`: on a fresh pair, setting the TOKA/TOKB price
to 5 makes the inverse report exactly 1/5. -/
theorem c7_amended_witness :
    (updateMarketPrice (19+1) ({} : EngineState) "TOKA" "TOKB" 5).toOption.map
      (fun s2 => getMarketPrice s2 "TOKB" "TOKA") = some (some (1/5)) :=
  c7_amended 19 {} "TOKA" "TOKB" 5 (by decide) (by decide) (by decide) (by decide)
    (by decide) (by decide) (by decide) (by decide) (by decide) (by decide)
    (by decide) (by decide)

/-- Witness for `c10_amended` at a concrete positive fill. -/
theorem c10_amended_witness :
    (((JNum.fin 2).isNaN || (JNum.fin 2).jle .zero) = false) ∧
    (c10Order.recordFill (.fin 2) none none 5).2.filled = c10Order.filled.add (.fin 2) := by
  refine ⟨by decide, ?_⟩
  exact ((c10_amended c10Order (.fin 2) none none 5).2 (by decide)).2.1

/-- Claim C9 (amended): every public engine operation — `addOrder`, the
matching and stop-triggering it performs, `updateMarketPrice`,
`executeBatchTrades` and the service cancel — preserves the fill/status
invariant, provided every STOP_LOSS/STOP_LIMIT order handed to `addOrder`
is unfilled (as the order service constructs them):
for every record with status PENDING or PARTIAL, `0 <= filled <= amount`;
`filled = 0` iff PENDING; `0 < filled < amount` iff PARTIAL; and
`filled = amount` implies FILLED.  The invariant is carried through the
recursion as `stateInv` (the same clauses strengthened with `0 < amount`
and registry-key coherence) and the per-record claim follows by
`ordInv_claimInv`. -/
theorem c9_amended :
    (∀ (fuel : ℕ) (s : EngineState) (id : String), stateInv s →
      (∀ o, getOrd s id = some o →
        (o.orderType = .STOP_LOSS ∨ o.orderType = .STOP_LIMIT) → o.filled = 0) →
      stateInv (addOrder fuel s id) ∧
      ∀ p ∈ (addOrder fuel s id).reg, claimInv p.2) ∧
    (∀ (fuel : ℕ) (s : EngineState) (b q : String) (pr : ℚ) (s2 : EngineState),
      stateInv s → updateMarketPrice fuel s b q pr = .ok s2 →
      stateInv s2 ∧ ∀ p ∈ s2.reg, claimInv p.2) ∧
    (∀ (fuel : ℕ) (s : EngineState) (ids : List String) (tol : Option ℚ),
      stateInv s →
      stateInv (executeBatchTrades fuel s ids tol).1 ∧
      ∀ p ∈ (executeBatchTrades fuel s ids tol).1.reg, claimInv p.2) ∧
    (∀ (s : EngineState) (id reason : String), stateInv s →
      stateInv (serviceCancelOrder s id reason) ∧
      ∀ p ∈ (serviceCancelOrder s id reason).reg, claimInv p.2) := by
  refine ⟨?_, ?_, ?_, ?_⟩
  · intro fuel s id hs hfresh
    have h1 : stateInv (addOrder fuel s id) := run_stateInv fuel s (.addOrder id) hs hfresh
    exact ⟨h1, fun p hp => ordInv_claimInv _ (h1 p hp).2⟩
  · intro fuel s b q pr s2 hs h
    unfold updateMarketPrice at h
    split at h
    · exact absurd h (by simp)
    · injection h with he
      have h1 : stateInv s2 := by
        rw [← he]
        exact run_stateInv fuel _ _ hs (by trivial)
      exact ⟨h1, fun p hp => ordInv_claimInv _ (h1 p hp).2⟩
  · intro fuel s ids tol hs
    have h1 := executeBatchTrades_inv fuel s ids tol hs
    exact ⟨h1, fun p hp => ordInv_claimInv _ (h1 p hp).2⟩
  · intro s id reason hs
    have h1 := serviceCancelOrder_inv s id reason hs
    exact ⟨h1, fun p hp => ordInv_claimInv _ (h1 p hp).2⟩

/-- Witness for `c9_amended`: a fresh limit order is added to an empty,
invariant-satisfying engine and the invariant still holds. -/
theorem c9_amended_witness :
    stateInv (addOrder 20 (putOrd {} scenarioL) "L") :=
  (c9_amended.1 20 (putOrd {} scenarioL) "L" (by decide) (by decide)).1

end Dex
